import Mathlib

/-!
# Verification of the map-generation and tile-serving core

A shallow embedding of the map generator (`src/lib/mapGeneration.ts`, hex
strategy), the tile math (`src/lib/tileGeneration.ts`), the cache
invalidation layer (`tileCache`), the tile GET route
(`src/app/api/map/tiles/[mapId]/[zoom]/[x]/[y]/route.ts`) and the
client-side tile loader (`src/lib/tileLoader.ts`).

Embedding conventions:
* JavaScript numbers are modelled as exact rationals (`ℚ`); integer-valued
  state (the linear congruential generator, the 32-bit string hash) is
  modelled as `ℤ` with JavaScript's truncated remainder.
* Transcendental library functions (`Math.sin`, `Math.cos`, `Math.sqrt`,
  `Math.pow`, `Math.PI`) are parameters of the embedding, collected in a
  `MathOps` record; theorems quantify over them, concrete evaluations pick
  arbitrary instantiations.
* `Math.floor` / `Math.ceil` are `Int.floor` / `Int.ceil` on `ℚ`.
* Asynchronous fire-and-forget database writes in the route are modelled as
  taking effect synchronously, and the set of performed operations is
  recorded in an effect trace.
-/

namespace AIEmpires

/-! ## JavaScript numeric primitives -/

/-- Coerce an integer to a signed 32-bit value, as JavaScript's `| 0`,
`& x` and `<< n` operators do (`ToInt32`). -/
def toInt32 (n : ℤ) : ℤ :=
  let m := n % 4294967296
  if m < 2147483648 then m else m - 4294967296

/-- JavaScript's `%` operator on integer-valued numbers: truncated
remainder, taking the sign of the dividend. -/
def jsRem (a b : ℤ) : ℤ :=
  if a < 0 then -((-a) % b) else a % b

/-! ## The seeded random source (`generateMap`, lines 1365–1381)

`seedValue = ((seedValue << 5) - seedValue) + seed.charCodeAt(i);
 seedValue = seedValue & seedValue;`
then `rng = (rng * 9301 + 49297) % 233280`, output `rng / 233280`. -/

/-- One step of the string-hash fold.  `(acc << 5) - acc + c` followed by
the `ToInt32` coercion performed by `acc & acc`. -/
def hashStep (acc : ℤ) (c : ℕ) : ℤ :=
  toInt32 (toInt32 (acc * 32) - acc + c)

/-- The 32-bit rolling hash of a string, given as its UTF-16 code units. -/
def jsHashCodes (codes : List ℕ) : ℤ :=
  codes.foldl hashStep 0

/-- Code units of a seed string (BMP characters only appear in practice,
where Lean code points and UTF-16 units agree). -/
def strCodes (s : String) : List ℕ :=
  s.data.map Char.toNat

/-- One step of the linear congruential generator:
`rng = (rng * 9301 + 49297) % 233280`. -/
def rngNext (rng : ℤ) : ℤ :=
  jsRem (rng * 9301 + 49297) 233280

/-- State of the generator after `n + 1` updates from the initial seed. -/
def rngState (seedValue : ℤ) (n : ℕ) : ℤ :=
  rngNext^[n + 1] seedValue

/-- The `n`-th (0-indexed) value produced by the seeded random source for a
seed string with the given code units: the state divided by 233280. -/
def seededValue (codes : List ℕ) (n : ℕ) : ℚ :=
  (rngState (jsHashCodes codes) n : ℚ) / 233280

/-- Draw one random value, returning the value and the successor state.
`random()` updates the state and returns `rng / 233280`. -/
def rand (rng : ℤ) : ℚ × ℤ :=
  let r := rngNext rng
  ((r : ℚ) / 233280, r)

/-! ### Bounds for the generator -/

theorem jsRem_lt (a : ℤ) : jsRem a 233280 < 233280 := by
  unfold jsRem
  split
  · have h := Int.emod_nonneg (-a) (by norm_num : (233280:ℤ) ≠ 0)
    omega
  · have h := Int.emod_lt_of_pos a (by norm_num : (0:ℤ) < 233280)
    omega

theorem neg_lt_jsRem (a : ℤ) : -233280 < jsRem a 233280 := by
  unfold jsRem
  split
  · have h := Int.emod_lt_of_pos (-a) (by norm_num : (0:ℤ) < 233280)
    omega
  · have h := Int.emod_nonneg a (by norm_num : (233280:ℤ) ≠ 0)
    omega

theorem jsRem_nonneg_of_nonneg (a : ℤ) (h : 0 ≤ a) : 0 ≤ jsRem a 233280 := by
  unfold jsRem
  split
  · omega
  · exact Int.emod_nonneg a (by norm_num)

theorem rngNext_lt (s : ℤ) : rngNext s < 233280 := jsRem_lt _

theorem neg_lt_rngNext (s : ℤ) : -233280 < rngNext s := neg_lt_jsRem _

theorem rngNext_nonneg (s : ℤ) (h : 0 ≤ s) : 0 ≤ rngNext s :=
  jsRem_nonneg_of_nonneg _ (by positivity)

theorem rngState_bounds (seedValue : ℤ) (n : ℕ) :
    -233280 < rngState seedValue n ∧ rngState seedValue n < 233280 := by
  unfold rngState
  rw [Function.iterate_succ_apply']
  exact ⟨neg_lt_rngNext _, rngNext_lt _⟩

theorem rngState_nonneg (seedValue : ℤ) (h : 0 ≤ seedValue) (n : ℕ) :
    0 ≤ rngState seedValue n := by
  unfold rngState
  induction n with
  | zero => exact rngNext_nonneg _ h
  | succ n ih =>
      rw [Function.iterate_succ_apply']
      exact rngNext_nonneg _ (by simpa [rngState, Function.iterate_succ_apply'] using ih)

/-! ## Tile math (`src/lib/tileGeneration.ts`) -/

/-- `ZOOM_MULTIPLIERS = [1, 2, 4, 8, 16]` for zoom levels 0–4. -/
def zoomMultipliers : List ℕ := [1, 2, 4, 8, 16]

/-- `getTileSize`: 1024 px for zoom ≥ 2, 512 px below. -/
def getTileSize (zoomLevel : ℕ) : ℕ :=
  if 2 ≤ zoomLevel then 1024 else 512

/-- The multiplier for a zoom level (`ZOOM_MULTIPLIERS[zoomLevel]`; only
levels 0–4 are addressed by the code). -/
def zoomMultiplier (zoomLevel : ℕ) : ℕ :=
  zoomMultipliers.getD zoomLevel 0

/-- World-space size of one tile: `tileSize * multiplier`. -/
def worldTileSize (zoomLevel : ℕ) : ℕ :=
  getTileSize zoomLevel * zoomMultiplier zoomLevel

/-- A tile coordinate as produced by `worldToTile`. -/
structure TileCoordinate where
  x : ℤ
  y : ℤ
  zoom : ℕ
  deriving DecidableEq, Repr

/-- `worldToTile`: floor-divide world coordinates by the world tile size. -/
def worldToTile (worldX worldY : ℚ) (zoomLevel : ℕ) : TileCoordinate :=
  let w : ℚ := worldTileSize zoomLevel
  ⟨⌊worldX / w⌋, ⌊worldY / w⌋, zoomLevel⟩

/-- The world-space bounds struct returned by `calculateTileBounds`. -/
structure TileBounds where
  minX : ℚ
  maxX : ℚ
  minY : ℚ
  maxY : ℚ
  deriving DecidableEq, Repr

/-- `calculateTileBounds`: raw bounds `[tileX*w, tileX*w + w)` clamped to the
map extents. -/
def calculateTileBounds (tileX tileY : ℤ) (zoomLevel : ℕ)
    (mapWidth mapHeight : ℚ) : TileBounds :=
  let w : ℚ := worldTileSize zoomLevel
  let minX : ℚ := tileX * w
  let maxX : ℚ := minX + w
  let minY : ℚ := tileY * w
  let maxY : ℚ := minY + w
  ⟨max 0 minX, min mapWidth maxX, max 0 minY, min mapHeight maxY⟩

theorem worldTileSize_pos (zoomLevel : ℕ) (h : zoomLevel ≤ 4) :
    0 < (worldTileSize zoomLevel : ℚ) := by
  interval_cases zoomLevel <;> norm_num [worldTileSize, getTileSize, zoomMultiplier, zoomMultipliers]

theorem floor_div_mul_le (x w : ℚ) (hw : 0 < w) : (⌊x / w⌋ : ℚ) * w ≤ x := by
  have h := Int.floor_le (x / w)
  calc (⌊x / w⌋ : ℚ) * w ≤ (x / w) * w := by
        exact mul_le_mul_of_nonneg_right h (le_of_lt hw)
    _ = x := by field_simp

theorem lt_floor_div_add_one_mul (x w : ℚ) (hw : 0 < w) :
    x < ((⌊x / w⌋ : ℚ) + 1) * w := by
  have h := Int.lt_floor_add_one (x / w)
  calc x = (x / w) * w := by field_simp
    _ < ((⌊x / w⌋ : ℚ) + 1) * w := by
        exact mul_lt_mul_of_pos_right (by exact_mod_cast h) hw

/-- **C10** — For every zoom level in `[0,4]`, positive map extents and a
world point inside the map, the tile coordinate computed by `worldToTile`
names exactly the tile whose clamped `calculateTileBounds` contain the
point: `minX ≤ x < maxX` and `minY ≤ y < maxY`. -/
theorem worldToTile_bounds_roundtrip (zoomLevel : ℕ) (hz : zoomLevel ≤ 4)
    (mapWidth mapHeight x y : ℚ) (hw0 : 0 < mapWidth) (hh0 : 0 < mapHeight)
    (hx0 : 0 ≤ x) (hx1 : x < mapWidth) (hy0 : 0 ≤ y) (hy1 : y < mapHeight) :
    (calculateTileBounds (worldToTile x y zoomLevel).x (worldToTile x y zoomLevel).y
        zoomLevel mapWidth mapHeight).minX ≤ x ∧
    x < (calculateTileBounds (worldToTile x y zoomLevel).x (worldToTile x y zoomLevel).y
        zoomLevel mapWidth mapHeight).maxX ∧
    (calculateTileBounds (worldToTile x y zoomLevel).x (worldToTile x y zoomLevel).y
        zoomLevel mapWidth mapHeight).minY ≤ y ∧
    y < (calculateTileBounds (worldToTile x y zoomLevel).x (worldToTile x y zoomLevel).y
        zoomLevel mapWidth mapHeight).maxY := by
  have hwpos := worldTileSize_pos zoomLevel hz
  simp only [calculateTileBounds, worldToTile]
  refine ⟨?_, ?_, ?_, ?_⟩
  · exact max_le (by exact hx0) (floor_div_mul_le x _ hwpos)
  · exact lt_min hx1 (by
      have := lt_floor_div_add_one_mul x (worldTileSize zoomLevel : ℚ) hwpos
      linarith)
  · exact max_le (by exact hy0) (floor_div_mul_le y _ hwpos)
  · exact lt_min hy1 (by
      have := lt_floor_div_add_one_mul y (worldTileSize zoomLevel : ℚ) hwpos
      linarith)

/-- Witness for C10 at zoom 1, map 2400×1500, point (1000, 750). -/
theorem worldToTile_bounds_roundtrip_witness :
    (calculateTileBounds (worldToTile 1000 750 1).x (worldToTile 1000 750 1).y
        1 2400 1500).minX ≤ 1000 ∧
    (1000:ℚ) < (calculateTileBounds (worldToTile 1000 750 1).x (worldToTile 1000 750 1).y
        1 2400 1500).maxX ∧
    (calculateTileBounds (worldToTile 1000 750 1).x (worldToTile 1000 750 1).y
        1 2400 1500).minY ≤ 750 ∧
    (750:ℚ) < (calculateTileBounds (worldToTile 1000 750 1).x (worldToTile 1000 750 1).y
        1 2400 1500).maxY :=
  worldToTile_bounds_roundtrip 1 (by norm_num) 2400 1500 1000 750
    (by norm_num) (by norm_num) (by norm_num) (by norm_num) (by norm_num) (by norm_num)

/-! ## C9 — range of the seeded random source -/

/-- **C9 (amended)** — Every value produced by the seeded random source lies
in the open interval `(-1, 1)`; when the folded 32-bit seed is nonnegative
the values lie in `[0, 1)`.  (The original claim `[0,1)` for *every* seed
string fails: the 32-bit hash can be negative and JavaScript's `%` then
yields negative states; see the counterexample.) -/
theorem seededRandom_range (codes : List ℕ) (n : ℕ) :
    -1 < seededValue codes n ∧ seededValue codes n < 1 ∧
    (0 ≤ jsHashCodes codes → 0 ≤ seededValue codes n) := by
  obtain ⟨hlo, hhi⟩ := rngState_bounds (jsHashCodes codes) n
  unfold seededValue
  refine ⟨?_, ?_, ?_⟩
  · have h : ((-233280 : ℤ) : ℚ) < ((rngState (jsHashCodes codes) n : ℤ) : ℚ) := by
      exact_mod_cast hlo
    rw [lt_div_iff₀ (by norm_num : (0:ℚ) < 233280)]
    push_cast at h ⊢
    linarith
  · rw [div_lt_one (by norm_num : (0:ℚ) < 233280)]
    exact_mod_cast hhi
  · intro h
    have := rngState_nonneg (jsHashCodes codes) h n
    positivity

/-- Witness for C9's amended statement: seed `"a"` (code 97), first value. -/
theorem seededRandom_range_witness :
    -1 < seededValue (strCodes "a") 0 ∧ seededValue (strCodes "a") 0 < 1 ∧
    0 ≤ seededValue (strCodes "a") 0 := by
  obtain ⟨h1, h2, h3⟩ := seededRandom_range (strCodes "a") 0
  exact ⟨h1, h2, h3 (by decide)⟩

set_option maxRecDepth 4000

/-- Counterexample to C9 as stated: the seed string `"zzzzzzzz"` hashes to
the negative 32-bit value `-1910022912` and the first produced value is
negative, hence not in `[0, 1)`. -/
theorem seededRandom_counterexample :
    seededValue (strCodes "zzzzzzzz") 0 < 0 ∧
    jsHashCodes (strCodes "zzzzzzzz") = -1910022912 := by
  constructor
  · show ((rngState (jsHashCodes (strCodes "zzzzzzzz")) 0 : ℤ) : ℚ) / 233280 < 0
    have h : (rngState (jsHashCodes (strCodes "zzzzzzzz")) 0 : ℤ) = -49775 := by decide
    rw [h]
    norm_num
  · decide

/-! ## Map generation (`src/lib/mapGeneration.ts`, hex-grid strategy) -/

/-- The transcendental `Math` library functions used by the generator.  They
are IEEE-754 approximations in JavaScript; the embedding treats them as
unconstrained parameters and theorems quantify over them. -/
structure MathOps where
  sin : ℚ → ℚ
  cos : ℚ → ℚ
  sqrt : ℚ → ℚ
  pow : ℚ → ℚ → ℚ
  pi : ℚ

inductive TerrainType
  | water
  | land
  deriving DecidableEq, Repr

inductive TileType
  | plains
  | woods
  | mountains
  | hills
  | desert
  | swamp
  deriving DecidableEq, Repr

inductive ResourceType
  | wheat
  | water
  | wood
  | cotton
  | bronze
  | iron
  | gold
  | coal
  | wildlife
  deriving DecidableEq, Repr

/-- The `TILE_TYPES` distribution table (shape of the `@/constants` value). -/
structure TileTypeWeights where
  PLAINS : ℚ
  WOODS : ℚ
  MOUNTAINS : ℚ
  HILLS : ℚ
  DESERT : ℚ
  SWAMP : ℚ
  deriving DecidableEq, Repr

/-- The `RESOURCE_SCARCITY` table (shape of the `@/constants` value). -/
structure ResourceScarcity where
  WHEAT : ℚ
  WATER : ℚ
  WOOD : ℚ
  COTTON : ℚ
  BRONZE : ℚ
  IRON : ℚ
  GOLD : ℚ
  COAL : ℚ
  WILDLIFE : ℚ
  deriving DecidableEq, Repr

/-- `noise2D`: `frac(sin(x·12.9898 + y·78.233 + seed) · 43758.5453)`. -/
def noise2D (ops : MathOps) (x y seed : ℚ) : ℚ :=
  let n := ops.sin (x * (129898/10000) + y * (78233/1000) + seed) * (437585453/10000)
  n - ⌊n⌋

/-- `smoothstep(t) = t²(3 − 2t)`. -/
def smoothstep (t : ℚ) : ℚ := t * t * (3 - 2 * t)

/-- `smoothNoise`: bilinear interpolation of `noise2D` at the four lattice
corners with smoothstep easing. -/
def smoothNoise (ops : MathOps) (x y seed scale : ℚ) : ℚ :=
  let scaledX := x / scale
  let scaledY := y / scale
  let x1 : ℤ := ⌊scaledX⌋
  let y1 : ℤ := ⌊scaledY⌋
  let x2 : ℤ := x1 + 1
  let y2 : ℤ := y1 + 1
  let fracX := scaledX - x1
  let fracY := scaledY - y1
  let smoothX := smoothstep fracX
  let smoothY := smoothstep fracY
  let n11 := noise2D ops x1 y1 seed
  let n12 := noise2D ops x1 y2 seed
  let n21 := noise2D ops x2 y1 seed
  let n22 := noise2D ops x2 y2 seed
  let i1 := n11 * (1 - smoothX) + n21 * smoothX
  let i2 := n12 * (1 - smoothX) + n22 * smoothX
  i1 * (1 - smoothY) + i2 * smoothY

/-- `fbm`: sum of `octaves` layers of smooth noise at doubling frequency and
halving amplitude, normalised by the total amplitude. -/
def fbm (ops : MathOps) (x y seed : ℚ) (octaves : ℕ) : ℚ :=
  let r := (List.range octaves).foldl
    (fun st i =>
      let (value, amplitude, frequency, maxValue) := st
      (value + smoothNoise ops (x * frequency) (y * frequency) (seed + (i : ℚ) * 1000) 50 * amplitude,
       amplitude * (1/2), frequency * 2, maxValue + amplitude))
    ((0 : ℚ), (1/2 : ℚ), (1 : ℚ), (0 : ℚ))
  r.1 / r.2.2.2

structure Continent where
  centerX : ℚ
  centerY : ℚ
  radiusX : ℚ
  radiusY : ℚ
  rotation : ℚ
  seed : ℚ
  deriving DecidableEq, Repr

structure Island where
  centerX : ℚ
  centerY : ℚ
  radius : ℚ
  seed : ℚ
  deriving DecidableEq, Repr

/-- `generateContinents`: seeded-random angle/distance placement with
elliptical radii and a rotation; the local generator starts at `seed` and is
drawn six times per continent, in source order. -/
def generateContinents (ops : MathOps) (width height : ℚ) (count : ℕ) (seed : ℤ) :
    List Continent :=
  ((List.range count).foldl
    (fun st i =>
      let (rng, acc) := st
      let (r1, rng) := rand rng
      let angle := ((i : ℚ) / (count : ℚ)) * ops.pi * 2 + r1 * (1/2)
      let (r2, rng) := rand rng
      let distanceFromCenter := 3/20 + r2 * (7/20)
      let centerX := width * (1/2 + ops.cos angle * distanceFromCenter)
      let centerY := height * (1/2 + ops.sin angle * distanceFromCenter)
      let (r3, rng) := rand rng
      let baseRadius := min width height * (1/5 + r3 * (3/20))
      let (r4, rng) := rand rng
      let radiusX := baseRadius * (4/5 + r4 * (2/5))
      let (r5, rng) := rand rng
      let radiusY := baseRadius * (4/5 + r5 * (2/5))
      let (r6, rng) := rand rng
      let rotation := r6 * ops.pi * 2
      (rng, acc ++ [{ centerX := centerX, centerY := centerY, radiusX := radiusX,
                      radiusY := radiusY, rotation := rotation,
                      seed := (seed : ℚ) + (i : ℚ) * 12345 }]))
    (seed, ([] : List Continent))).2

/-- The candidate-rejection test of `generateIslands`: a candidate is too
close when its distance to some continent's center is below that
continent's average radius `(radiusX + radiusY) / 2`. -/
def islandTooClose (ops : MathOps) (centerX centerY : ℚ) (continents : List Continent) :
    Bool :=
  continents.any fun c =>
    let dx := centerX - c.centerX
    let dy := centerY - c.centerY
    let dist := ops.sqrt (dx * dx + dy * dy)
    decide (dist < (c.radiusX + c.radiusY) / 2)

/-- The `while (tooClose && attempts < 50)` placement loop of
`generateIslands`, with `fuel = 50 − attempts`.  Returns the final
`(centerX, centerY, tooClose, attempts, rng)`. -/
def islandPlaceLoop (ops : MathOps) (width height : ℚ) (continents : List Continent) :
    ℕ → ℚ → ℚ → Bool → ℕ → ℤ → ℚ × ℚ × Bool × ℕ × ℤ
  | 0, cx, cy, tooClose, attempts, rng => (cx, cy, tooClose, attempts, rng)
  | fuel + 1, cx, cy, tooClose, attempts, rng =>
    if tooClose then
      let (r1, rng) := rand rng
      let cx := width * (1/10 + r1 * (4/5))
      let (r2, rng) := rand rng
      let cy := height * (1/10 + r2 * (4/5))
      let tc := islandTooClose ops cx cy continents
      islandPlaceLoop ops width height continents fuel cx cy tc (attempts + 1) rng
    else (cx, cy, tooClose, attempts, rng)

/-- One island's placement attempt loop, started at
`centerX = centerY = 0`, `tooClose = true`, `attempts = 0`. -/
def islandPlace (ops : MathOps) (width height : ℚ) (continents : List Continent)
    (rng : ℤ) : ℚ × ℚ × Bool × ℕ × ℤ :=
  islandPlaceLoop ops width height continents 50 0 0 true 0 rng

/-- The body of `generateIslands`' per-island loop: run the placement
attempts, skip the island (`continue`, also skipping the radius draw) when
`attempts >= 50`, otherwise draw a radius and append the island. -/
def generateIslandsStep (ops : MathOps) (width height : ℚ) (seed : ℤ)
    (continents : List Continent) (st : ℤ × List Island) (i : ℕ) : ℤ × List Island :=
  let minIslandRadius := min width height * (3/100)
  let maxIslandRadius := min width height * (8/100)
  let (rng, acc) := st
  let (cx, cy, _tooClose, attempts, rng) := islandPlace ops width height continents rng
  if 50 ≤ attempts then (rng, acc)
  else
    let (r, rng) := rand rng
    let radius := minIslandRadius + r * (maxIslandRadius - minIslandRadius)
    (rng, acc ++ [{ centerX := cx, centerY := cy, radius := radius,
                    seed := (seed : ℚ) + (i : ℚ) * 54321 }])

/-- `generateIslands`: the local generator starts at `seed + 99999`. -/
def generateIslands (ops : MathOps) (width height : ℚ) (count : ℕ) (seed : ℤ)
    (continents : List Continent) : List Island :=
  ((List.range count).foldl (generateIslandsStep ops width height seed continents)
    (seed + 99999, ([] : List Island))).2

/-- `evaluateContinent`: rotation-corrected elliptical falloff perturbed by
three FBM octave groups, clamped to `[0, 1]`. -/
def evaluateContinent (ops : MathOps) (x y : ℚ) (c : Continent) (variance : ℚ) : ℚ :=
  let dx := x - c.centerX
  let dy := y - c.centerY
  let rotatedX := dx * ops.cos (-c.rotation) - dy * ops.sin (-c.rotation)
  let rotatedY := dx * ops.sin (-c.rotation) + dy * ops.cos (-c.rotation)
  let normalizedDist := ops.sqrt
    (rotatedX * rotatedX / (c.radiusX * c.radiusX) +
     rotatedY * rotatedY / (c.radiusY * c.radiusY))
  let falloffPower := 13/10 - variance * (3/10)
  let baseShape := max 0 (1 - ops.pow normalizedDist falloffPower)
  if baseShape ≤ 0 then 0
  else
    let continentNoise := fbm ops x y c.seed 3
    let mediumNoise := fbm ops x y (c.seed + 5000) 5
    let detailNoise := fbm ops x y (c.seed + 10000) 6
    let noiseWeight1 := 1/2 - variance * (1/10)
    let noiseWeight2 := 3/10 + variance * (1/10)
    let noiseWeight3 := 1/5 + variance * (1/10)
    let combinedNoise :=
      continentNoise * noiseWeight1 + mediumNoise * noiseWeight2 + detailNoise * noiseWeight3
    let noiseInfluence := (combinedNoise - 1/2) * variance * (3/2)
    let shapeDistortion := variance * (1/5) * (combinedNoise - 1/2)
    max 0 (min 1 (baseShape + noiseInfluence + shapeDistortion))

/-- `evaluateIsland`: circular falloff with a steeper exponent, perturbed by
two FBM groups, clamped to `[0, 1]`. -/
def evaluateIsland (ops : MathOps) (x y : ℚ) (isl : Island) (variance : ℚ) : ℚ :=
  let dx := x - isl.centerX
  let dy := y - isl.centerY
  let dist := ops.sqrt (dx * dx + dy * dy)
  let normalizedDist := dist / isl.radius
  let falloffPower := 2 - variance * (2/5)
  let baseShape := max 0 (1 - ops.pow normalizedDist falloffPower)
  if baseShape ≤ 0 then 0
  else
    let islandNoise := fbm ops x y isl.seed 4
    let detailNoise := fbm ops x y (isl.seed + 20000) 6
    let noiseInfluence := (islandNoise - 1/2) * variance * (3/5)
    let detailInfluence := (detailNoise - 1/2) * variance * (3/10)
    max 0 (min 1 (baseShape + noiseInfluence + detailInfluence))

/-- `calculateElevation`: the maximum over every continent's and island's
contribution, starting from 0. -/
def calculateElevation (ops : MathOps) (x y : ℚ) (continents : List Continent)
    (islands : List Island) (variance : ℚ) : ℚ :=
  let m1 := continents.foldl (fun m c => max m (evaluateContinent ops x y c variance)) 0
  islands.foldl (fun m isl => max m (evaluateIsland ops x y isl variance)) m1

/-- `assignTileType`: one draw of the overridden `Math.random`, then a
cumulative-probability chain, defaulting to Plains. -/
def assignTileType (tileTypes : TileTypeWeights) (rng : ℤ) : TileType × ℤ :=
  let (r, rng) := rand rng
  let c1 := tileTypes.PLAINS
  if r < c1 then (TileType.plains, rng) else
  let c2 := c1 + tileTypes.WOODS
  if r < c2 then (TileType.woods, rng) else
  let c3 := c2 + tileTypes.MOUNTAINS
  if r < c3 then (TileType.mountains, rng) else
  let c4 := c3 + tileTypes.HILLS
  if r < c4 then (TileType.hills, rng) else
  let c5 := c4 + tileTypes.DESERT
  if r < c5 then (TileType.desert, rng) else
  let c6 := c5 + tileTypes.SWAMP
  if r < c6 then (TileType.swamp, rng) else
  (TileType.plains, rng)

/-- `assignResource` (hex version): returns `undefined` without drawing for
non-land terrain, otherwise one draw and a cumulative chain in order
gold, bronze, iron, coal, wheat, wood, cotton, wildlife, water. -/
def assignResource (terrain : TerrainType) (x y width height : ℚ)
    (resourceScarcity : ResourceScarcity) (rng : ℤ) : Option ResourceType × ℤ :=
  if terrain ≠ TerrainType.land then (none, rng)
  else
    let (r, rng) := rand rng
    let c1 := resourceScarcity.GOLD
    if r < c1 then (some ResourceType.gold, rng) else
    let c2 := c1 + resourceScarcity.BRONZE
    if r < c2 then (some ResourceType.bronze, rng) else
    let c3 := c2 + resourceScarcity.IRON
    if r < c3 then (some ResourceType.iron, rng) else
    let c4 := c3 + resourceScarcity.COAL
    if r < c4 then (some ResourceType.coal, rng) else
    let c5 := c4 + resourceScarcity.WHEAT
    if r < c5 then (some ResourceType.wheat, rng) else
    let c6 := c5 + resourceScarcity.WOOD
    if r < c6 then (some ResourceType.wood, rng) else
    let c7 := c6 + resourceScarcity.COTTON
    if r < c7 then (some ResourceType.cotton, rng) else
    let c8 := c7 + resourceScarcity.WILDLIFE
    if r < c8 then (some ResourceType.wildlife, rng) else
    let c9 := c8 + resourceScarcity.WATER
    if r < c9 then (some ResourceType.water, rng) else
    (none, rng)

/-! ### Hex grid -/

/-- `hexToPixel` for pointy-top hexagons:
`x = hexSize·√3·(col + (row % 2)·0.5)`, `y = hexSize·1.5·row`. -/
def hexToPixel (ops : MathOps) (row col : ℕ) (hexSize : ℚ) : ℚ × ℚ :=
  (hexSize * ops.sqrt 3 * ((col : ℚ) + ((row % 2 : ℕ) : ℚ) * (1/2)),
   hexSize * (3/2) * (row : ℚ))

/-- `generateHexagonVertices`: six vertices at 60° increments,
`(cx + hexSize·sin θ, cy − hexSize·cos θ)`. -/
def generateHexagonVertices (ops : MathOps) (centerX centerY hexSize : ℚ) :
    List (ℚ × ℚ) :=
  (List.range 6).map fun i =>
    let angle := (ops.pi / 3) * (i : ℚ)
    (centerX + hexSize * ops.sin angle, centerY - hexSize * ops.cos angle)

/-- `getHexNeighbors`: parity-dependent offset tables for pointy-top offset
coordinates (the function is only invoked on the nonnegative grid range). -/
def getHexNeighbors (row col : ℕ) : List (ℤ × ℤ) :=
  let r : ℤ := row
  let c : ℤ := col
  if row % 2 == 1 then
    [(r - 1, c), (r - 1, c + 1), (r, c + 1), (r + 1, c + 1), (r + 1, c), (r, c - 1)]
  else
    [(r - 1, c - 1), (r - 1, c), (r, c + 1), (r + 1, c), (r + 1, c - 1), (r, c - 1)]

/-! ### Cells and the generation pipeline -/

structure HexCell where
  id : String
  site : ℚ × ℚ
  polygon : List (ℚ × ℚ)
  neighbors : List String
  terrain : TerrainType
  tileType : Option TileType := none
  resource : Option ResourceType := none
  elevation : Option ℚ := none
  row : Option ℕ := none
  col : Option ℕ := none
  deriving DecidableEq, Repr

/-- The `cellsWithElevation` entries of the first generation pass. -/
structure CellWithElevation where
  cell : HexCell
  elevation : ℚ
  row : ℕ
  col : ℕ
  deriving DecidableEq, Repr

structure MapData where
  id : String
  seed : String
  width : ℚ
  height : ℚ
  cells : List HexCell
  createdAt : String
  updatedAt : String
  deriving DecidableEq, Repr

/-- The fixed generation context: the math oracle and the map geometry. -/
structure HexGenCtx where
  ops : MathOps
  width : ℚ
  height : ℚ
  hexSize : ℚ

/-- `cols = Math.ceil(width / hexWidth) + 1` with `hexWidth = hexSize·√3`
(the loop over `col < cols` only runs for positive counts). -/
def hexCols (ctx : HexGenCtx) : ℕ :=
  (⌈ctx.width / (ctx.hexSize * ctx.ops.sqrt 3)⌉ + 1).toNat

/-- `rows = Math.ceil(height / hexHeight) + 1` with `hexHeight = hexSize·2`. -/
def hexRows (ctx : HexGenCtx) : ℕ :=
  (⌈ctx.height / (ctx.hexSize * 2)⌉ + 1).toNat

/-- The grid cell survives the bounds check (hexagons fully outside the map
bounds with one `hexSize` margin are skipped). -/
def hexPresent (ctx : HexGenCtx) (row col : ℕ) : Bool :=
  let p := hexToPixel ctx.ops row col ctx.hexSize
  if p.1 < -ctx.hexSize ∨ p.1 > ctx.width + ctx.hexSize ∨
      p.2 < -ctx.hexSize ∨ p.2 > ctx.height + ctx.hexSize
  then false else true

/-- `id = \x7bhex-$\x7brow\x7d-$\x7bcol\x7d\x7d`-style identifier string. -/
def hexId (row col : ℕ) : String :=
  "hex-" ++ toString row ++ "-" ++ toString col

/-- The entry generated for grid position `(row, col)`: the base cell (id,
center, vertices, default water terrain, empty neighbor list) together with
its elevation. -/
def genEntryAt (ctx : HexGenCtx) (continents : List Continent) (islands : List Island)
    (variance : ℚ) (row col : ℕ) : CellWithElevation :=
  let p := hexToPixel ctx.ops row col ctx.hexSize
  { cell :=
      { id := hexId row col
        site := p
        polygon := generateHexagonVertices ctx.ops p.1 p.2 ctx.hexSize
        neighbors := []
        terrain := TerrainType.water }
    elevation := calculateElevation ctx.ops p.1 p.2 continents islands variance
    row := row
    col := col }

/-- First pass of `generateMap`: generate every in-bounds grid cell, with
its vertices and its elevation, in row-major order. -/
def genEntries (ctx : HexGenCtx) (continents : List Continent) (islands : List Island)
    (variance : ℚ) : List CellWithElevation :=
  (List.range (hexRows ctx)).bind fun row =>
    (List.range (hexCols ctx)).filterMap fun col =>
      if hexPresent ctx row col then some (genEntryAt ctx continents islands variance row col)
      else none

/-- The terrain-assignment loop: cells at sorted index `< landCellCount`
become land with a tile type and an optional resource (consuming the
overridden `Math.random` chain), the rest become water; every cell records
its elevation, row and column. -/
def assignCells (tileTypes : TileTypeWeights) (resourceScarcity : ResourceScarcity)
    (width height : ℚ) (landCellCount : ℤ) :
    ℕ → ℤ → List CellWithElevation → List CellWithElevation × ℤ
  | _, rng, [] => ([], rng)
  | i, rng, e :: es =>
    let base := { e.cell with elevation := some e.elevation, row := some e.row,
                              col := some e.col }
    if (i : ℤ) < landCellCount then
      let (tt, rng) := assignTileType tileTypes rng
      let (res, rng) := assignResource TerrainType.land e.cell.site.1 e.cell.site.2
        width height resourceScarcity rng
      let e' := { e with cell := { base with terrain := TerrainType.land,
                                             tileType := some tt, resource := res } }
      let rest := assignCells tileTypes resourceScarcity width height landCellCount
        (i + 1) rng es
      (e' :: rest.1, rest.2)
    else
      let e' := { e with cell := { base with terrain := TerrainType.water } }
      let rest := assignCells tileTypes resourceScarcity width height landCellCount
        (i + 1) rng es
      (e' :: rest.1, rest.2)

/-- Neighbor ids of grid position `(row, col)`: the parity-offset neighbors
that exist in the cell map (in-range and not skipped by the bounds check). -/
def neighborIdsAt (ctx : HexGenCtx) (row col : ℕ) : List String :=
  (getHexNeighbors row col).filterMap fun p =>
    if 0 ≤ p.1 ∧ p.1 < (hexRows ctx : ℤ) ∧ 0 ≤ p.2 ∧ p.2 < (hexCols ctx : ℤ) ∧
        hexPresent ctx p.1.toNat p.2.toNat = true
    then some (hexId p.1.toNat p.2.toNat) else none

/-- `generateMap` (hex strategy).  `now` abstracts the wall clock consulted
by `Date.now()` / `toISOString()`, which only feeds the `MapData` id and
timestamps.  The sort `(a, b) => b.elevation - a.elevation` is JavaScript's
stable sort under a consistent comparator, i.e. the stable descending sort
by elevation, which `List.insertionSort` with `b.elevation ≤ a.elevation`
computes. -/
def generateMap (ops : MathOps) (seed : String) (width height hexSize : ℚ)
    (numContinents numIslands : ℕ) (landVariance landTilePercentage : ℚ)
    (tileTypes : TileTypeWeights) (resourceScarcity : ResourceScarcity)
    (now : ℕ) : MapData :=
  let seedValue := jsHashCodes (strCodes seed)
  let ctx : HexGenCtx := ⟨ops, width, height, hexSize⟩
  let continents := generateContinents ops width height numContinents seedValue
  let islands := generateIslands ops width height numIslands seedValue continents
  let entries := genEntries ctx continents islands landVariance
  let sorted := List.insertionSort (fun a b => b.elevation ≤ a.elevation) entries
  let totalCells := sorted.length
  let landCellCount : ℤ := ⌊(totalCells : ℚ) * landTilePercentage⌋
  let assigned := (assignCells tileTypes resourceScarcity width height landCellCount
    0 seedValue sorted).1
  let cells := assigned.map fun e =>
    { e.cell with neighbors := neighborIdsAt ctx e.row e.col }
  { id := "map-" ++ toString now
    seed := seed
    width := width
    height := height
    cells := cells
    createdAt := toString now
    updatedAt := toString now }

/-! ### Structural lemmas about the generation pipeline -/

theorem genEntryAt_row (ctx : HexGenCtx) (cs : List Continent) (is : List Island)
    (v : ℚ) (row col : ℕ) : (genEntryAt ctx cs is v row col).row = row := rfl

theorem genEntryAt_col (ctx : HexGenCtx) (cs : List Continent) (is : List Island)
    (v : ℚ) (row col : ℕ) : (genEntryAt ctx cs is v row col).col = col := rfl

theorem genEntryAt_id (ctx : HexGenCtx) (cs : List Continent) (is : List Island)
    (v : ℚ) (row col : ℕ) : (genEntryAt ctx cs is v row col).cell.id = hexId row col := rfl

theorem mem_genEntries {ctx : HexGenCtx} {cs : List Continent} {is : List Island}
    {v : ℚ} {e : CellWithElevation} :
    e ∈ genEntries ctx cs is v ↔
      ∃ row col, row < hexRows ctx ∧ col < hexCols ctx ∧
        hexPresent ctx row col = true ∧ e = genEntryAt ctx cs is v row col := by
  unfold genEntries
  simp only [List.mem_bind, List.mem_filterMap, List.mem_range]
  constructor
  · rintro ⟨row, hrow, col, hcol, hsome⟩
    by_cases hp : hexPresent ctx row col = true
    · rw [if_pos hp] at hsome
      exact ⟨row, col, hrow, hcol, hp, (Option.some_inj.mp hsome).symm⟩
    · rw [if_neg hp] at hsome
      cases hsome
  · rintro ⟨row, col, hrow, hcol, hp, he⟩
    exact ⟨row, hrow, col, hcol, by rw [if_pos hp, he]⟩

theorem assignCells_length (tt : TileTypeWeights) (rs : ResourceScarcity)
    (w h : ℚ) (L : ℤ) (l : List CellWithElevation) :
    ∀ (i : ℕ) (rng : ℤ), (assignCells tt rs w h L i rng l).1.length = l.length := by
  induction l with
  | nil => intro i rng; rfl
  | cons e es ih =>
      intro i rng
      rw [assignCells]
      split
      · simpa using ih _ _
      · simpa using ih _ _

/-- Cells assigned by a run of the loop starting at index `i`: exactly
`min (L - i)⁺ len` land cells. -/
theorem assignCells_land_count (tt : TileTypeWeights) (rs : ResourceScarcity)
    (w h : ℚ) (L : ℤ) (l : List CellWithElevation) :
    ∀ (i : ℕ) (rng : ℤ),
      (assignCells tt rs w h L i rng l).1.countP
          (fun e => e.cell.terrain == TerrainType.land) =
        if L ≤ (i : ℤ) then 0 else min (L - i).toNat l.length := by
  induction l with
  | nil =>
      intro i rng
      simp only [assignCells, List.countP_nil, List.length_nil, Nat.min_zero]
      split <;> rfl
  | cons e es ih =>
      intro i rng
      have hwl : (TerrainType.water == TerrainType.land) = false := rfl
      rw [assignCells]
      split
      · rename_i hlt
        simp only [List.countP_cons, ih, List.length_cons, beq_self_eq_true, if_true]
        rw [if_neg (by omega : ¬ L ≤ (i : ℤ))]
        by_cases h2 : L ≤ ((i + 1 : ℕ) : ℤ)
        · rw [if_pos h2]
          push_cast at h2
          omega
        · rw [if_neg h2]
          push_cast at h2
          omega
      · rename_i hge
        simp only [List.countP_cons, ih, List.length_cons, hwl, if_false, add_zero]
        have h3 : L ≤ (i : ℤ) := by omega
        rw [if_pos h3, if_pos (by push_cast; omega : L ≤ ((i + 1 : ℕ) : ℤ))]
        simp

/-- Every output cell of the assignment loop corresponds to an input entry
with the same grid position and id; water cells keep the input's (absent)
tile type and resource. -/
theorem assignCells_mem_forward (tt : TileTypeWeights) (rs : ResourceScarcity)
    (w h : ℚ) (L : ℤ) (l : List CellWithElevation) :
    ∀ (i : ℕ) (rng : ℤ) (e' : CellWithElevation),
      e' ∈ (assignCells tt rs w h L i rng l).1 →
      ∃ e ∈ l, e'.row = e.row ∧ e'.col = e.col ∧ e'.cell.id = e.cell.id ∧
        (e'.cell.terrain = TerrainType.water →
          e'.cell.tileType = e.cell.tileType ∧ e'.cell.resource = e.cell.resource) := by
  induction l with
  | nil =>
      intro i rng e' hmem
      simp [assignCells] at hmem
  | cons e es ih =>
      intro i rng e' hmem
      rw [assignCells] at hmem
      split at hmem
      · rcases List.mem_cons.mp hmem with rfl | hmem'
        · refine ⟨e, List.mem_cons_self _ _, rfl, rfl, rfl, ?_⟩
          intro hw
          simp at hw
        · obtain ⟨e₀, he₀, h1, h2, h3, h4⟩ := ih _ _ _ hmem'
          exact ⟨e₀, List.mem_cons_of_mem _ he₀, h1, h2, h3, h4⟩
      · rcases List.mem_cons.mp hmem with rfl | hmem'
        · exact ⟨e, List.mem_cons_self _ _, rfl, rfl, rfl, fun _ => ⟨rfl, rfl⟩⟩
        · obtain ⟨e₀, he₀, h1, h2, h3, h4⟩ := ih _ _ _ hmem'
          exact ⟨e₀, List.mem_cons_of_mem _ he₀, h1, h2, h3, h4⟩

/-- Every input entry of the assignment loop yields an output cell with the
same grid position and id. -/
theorem assignCells_mem_backward (tt : TileTypeWeights) (rs : ResourceScarcity)
    (w h : ℚ) (L : ℤ) (l : List CellWithElevation) :
    ∀ (i : ℕ) (rng : ℤ) (e : CellWithElevation), e ∈ l →
      ∃ e' ∈ (assignCells tt rs w h L i rng l).1,
        e'.row = e.row ∧ e'.col = e.col ∧ e'.cell.id = e.cell.id := by
  induction l with
  | nil =>
      intro i rng e hmem
      cases hmem
  | cons e₁ es ih =>
      intro i rng e hmem
      rw [assignCells]
      split
      · rcases List.mem_cons.mp hmem with rfl | hmem'
        · exact ⟨_, List.mem_cons_self _ _, rfl, rfl, rfl⟩
        · obtain ⟨e', he', h1, h2, h3⟩ := ih _ _ _ hmem'
          exact ⟨e', List.mem_cons_of_mem _ he', h1, h2, h3⟩
      · rcases List.mem_cons.mp hmem with rfl | hmem'
        · exact ⟨_, List.mem_cons_self _ _, rfl, rfl, rfl⟩
        · obtain ⟨e', he', h1, h2, h3⟩ := ih _ _ _ hmem'
          exact ⟨e', List.mem_cons_of_mem _ he', h1, h2, h3⟩

/-- Unfolding of the cell list produced by `generateMap`. -/
theorem generateMap_cells_eq (ops : MathOps) (seed : String) (width height hexSize : ℚ)
    (numContinents numIslands : ℕ) (landVariance landTilePercentage : ℚ)
    (tileTypes : TileTypeWeights) (resourceScarcity : ResourceScarcity) (now : ℕ) :
    (generateMap ops seed width height hexSize numContinents numIslands
        landVariance landTilePercentage tileTypes resourceScarcity now).cells =
      ((assignCells tileTypes resourceScarcity width height
          ⌊(((List.insertionSort (fun a b => b.elevation ≤ a.elevation)
              (genEntries ⟨ops, width, height, hexSize⟩
                (generateContinents ops width height numContinents (jsHashCodes (strCodes seed)))
                (generateIslands ops width height numIslands (jsHashCodes (strCodes seed))
                  (generateContinents ops width height numContinents (jsHashCodes (strCodes seed))))
                landVariance)).length : ℚ) * landTilePercentage)⌋
          0 (jsHashCodes (strCodes seed))
          (List.insertionSort (fun a b => b.elevation ≤ a.elevation)
            (genEntries ⟨ops, width, height, hexSize⟩
              (generateContinents ops width height numContinents (jsHashCodes (strCodes seed)))
              (generateIslands ops width height numIslands (jsHashCodes (strCodes seed))
                (generateContinents ops width height numContinents (jsHashCodes (strCodes seed))))
              landVariance))).1.map
        (fun e => { e.cell with
          neighbors := neighborIdsAt ⟨ops, width, height, hexSize⟩ e.row e.col })) := rfl

/-! ## C4 — resource exclusivity -/

/-- **C4** — Every cell of a generated map carries at most one resource
(the `resource` field is optional), and a water cell has neither a tile
type nor a resource: both optional fields are present only on land cells. -/
theorem generateMap_resource_exclusivity (ops : MathOps) (seed : String)
    (width height hexSize : ℚ) (numContinents numIslands : ℕ)
    (landVariance landTilePercentage : ℚ) (tileTypes : TileTypeWeights)
    (resourceScarcity : ResourceScarcity) (now : ℕ) :
    ∀ cell ∈ (generateMap ops seed width height hexSize numContinents numIslands
        landVariance landTilePercentage tileTypes resourceScarcity now).cells,
      cell.resource.toList.length ≤ 1 ∧
      (cell.terrain = TerrainType.water →
        cell.tileType = none ∧ cell.resource = none) := by
  intro cell hcell
  rw [generateMap_cells_eq] at hcell
  obtain ⟨e', he', rfl⟩ := List.mem_map.mp hcell
  constructor
  · cases e'.cell.resource <;> simp
  · intro hw
    obtain ⟨e, he, _, _, _, h4⟩ := assignCells_mem_forward _ _ _ _ _ _ _ _ _ he'
    have hw' : e'.cell.terrain = TerrainType.water := hw
    obtain ⟨ht, hr⟩ := h4 hw'
    have hes : e ∈ genEntries ⟨ops, width, height, hexSize⟩
        (generateContinents ops width height numContinents (jsHashCodes (strCodes seed)))
        (generateIslands ops width height numIslands (jsHashCodes (strCodes seed))
          (generateContinents ops width height numContinents (jsHashCodes (strCodes seed))))
        landVariance := ((List.perm_insertionSort _ _).mem_iff).mp he
    obtain ⟨row, col, _, _, _, rfl⟩ := mem_genEntries.mp hes
    refine ⟨?_, ?_⟩
    · show e'.cell.tileType = none
      rw [ht]
      rfl
    · show e'.cell.resource = none
      rw [hr]
      rfl

/-! ## C5 — land fraction -/

theorem assignCells_land_fraction_core (tt : TileTypeWeights) (rs : ResourceScarcity)
    (w h : ℚ) (p : ℚ) (rng : ℤ) (l : List CellWithElevation)
    (hp0 : 0 ≤ p) (hp1 : p ≤ 1) (hN : 0 < l.length) :
    |(((assignCells tt rs w h ⌊(l.length : ℚ) * p⌋ 0 rng l).1.countP
        (fun e => e.cell.terrain == TerrainType.land) : ℚ) / (l.length : ℚ)) - p| ≤
      1 / (l.length : ℚ) := by
  set N := l.length with hN_def
  set L : ℤ := ⌊(N : ℚ) * p⌋ with hL_def
  have hNQ : (0 : ℚ) < (N : ℚ) := by exact_mod_cast hN
  have hL0 : 0 ≤ L := Int.floor_nonneg.mpr (by positivity)
  have hLN : L ≤ (N : ℤ) := by
    have h1 : (N : ℚ) * p ≤ (N : ℚ) := by nlinarith
    calc L ≤ ⌊(N : ℚ)⌋ := Int.floor_le_floor h1
      _ = (N : ℤ) := Int.floor_natCast N
  have hcount : (assignCells tt rs w h L 0 rng l).1.countP
      (fun e => e.cell.terrain == TerrainType.land) = L.toNat := by
    rw [assignCells_land_count]
    by_cases h0 : L ≤ (0 : ℤ)
    · rw [if_pos (by exact_mod_cast h0)]
      omega
    · rw [if_neg (by exact_mod_cast h0)]
      omega
  rw [hcount]
  have hLQ : ((L.toNat : ℕ) : ℚ) = ((L : ℤ) : ℚ) := by
    exact_mod_cast congrArg (fun z : ℤ => (z : ℚ)) (Int.toNat_of_nonneg hL0)
  rw [hLQ]
  have hfl : ((L : ℤ) : ℚ) ≤ (N : ℚ) * p := Int.floor_le _
  have hfu : (N : ℚ) * p < ((L : ℤ) : ℚ) + 1 := Int.lt_floor_add_one _
  rw [abs_le]
  constructor
  · have hup : p ≤ ((L : ℤ) : ℚ) / (N : ℚ) + 1 / (N : ℚ) := by
      rw [div_add_div_same, le_div_iff₀ hNQ]
      nlinarith
    linarith
  · have hlo : ((L : ℤ) : ℚ) / (N : ℚ) ≤ p := by
      rw [div_le_iff₀ hNQ]
      nlinarith
    have : 0 < 1 / (N : ℚ) := by positivity
    linarith

/-- **C5** — For a generated map with at least one cell and a land fraction
parameter in `[0,1]`, the fraction of cells assigned Land differs from
`landTilePercentage` by at most one cell: the loop makes exactly
`⌊totalCells · landTilePercentage⌋` cells land. -/
theorem generateMap_land_fraction (ops : MathOps) (seed : String)
    (width height hexSize : ℚ) (numContinents numIslands : ℕ)
    (landVariance landTilePercentage : ℚ) (tileTypes : TileTypeWeights)
    (resourceScarcity : ResourceScarcity) (now : ℕ)
    (hp0 : 0 ≤ landTilePercentage) (hp1 : landTilePercentage ≤ 1)
    (hN : 0 < (generateMap ops seed width height hexSize numContinents numIslands
        landVariance landTilePercentage tileTypes resourceScarcity now).cells.length) :
    |(((generateMap ops seed width height hexSize numContinents numIslands
          landVariance landTilePercentage tileTypes resourceScarcity now).cells.countP
          (fun c => c.terrain == TerrainType.land) : ℚ) /
        ((generateMap ops seed width height hexSize numContinents numIslands
          landVariance landTilePercentage tileTypes resourceScarcity now).cells.length : ℚ)) -
      landTilePercentage| ≤
      1 / ((generateMap ops seed width height hexSize numContinents numIslands
          landVariance landTilePercentage tileTypes resourceScarcity now).cells.length : ℚ) := by
  rw [generateMap_cells_eq] at hN ⊢
  rw [List.countP_map, List.length_map, assignCells_length] at *
  have hfun : ((fun c => c.terrain == TerrainType.land) ∘
      (fun e : CellWithElevation =>
        { e.cell with neighbors := neighborIdsAt ⟨ops, width, height, hexSize⟩ e.row e.col })) =
      (fun e : CellWithElevation => e.cell.terrain == TerrainType.land) := rfl
  rw [hfun]
  exact assignCells_land_fraction_core _ _ _ _ _ _ _ hp0 hp1 hN

/-! ### A small concrete generation run used by witnesses

Oracle: `sin = cos = 0`, `sqrt _ = 2`, `pow _ _ = 0`, `pi = 0`; seed `"a"`,
map 4×4, `hexSize = 2`, no continents or islands, land fraction `1/2`,
all-zero weight tables.  The grid is 2×2; all elevations are 0, the stable
sort keeps row-major order, so the first two cells become land. -/

def wOps : MathOps := ⟨fun _ => 0, fun _ => 0, fun _ => 2, fun _ _ => 0, 0⟩

def wTT : TileTypeWeights := ⟨0, 0, 0, 0, 0, 0⟩

def wRS : ResourceScarcity := ⟨0, 0, 0, 0, 0, 0, 0, 0, 0⟩

/-- The third cell (`hex-1-0`) of the witness run: a water cell. -/
def wCellWater : HexCell :=
  { id := "hex-1-0", site := (2, 3),
    polygon := [(2, 3), (2, 3), (2, 3), (2, 3), (2, 3), (2, 3)],
    neighbors := ["hex-0-0", "hex-0-1", "hex-1-1"],
    terrain := TerrainType.water, tileType := none, resource := none,
    elevation := some 0, row := some 1, col := some 0 }

/-- The first cell (`hex-0-0`) of the witness run: a land cell. -/
def wCellLand : HexCell :=
  { id := "hex-0-0", site := (0, 0),
    polygon := [(0, 0), (0, 0), (0, 0), (0, 0), (0, 0), (0, 0)],
    neighbors := ["hex-0-1", "hex-1-0"],
    terrain := TerrainType.land, tileType := some TileType.plains, resource := none,
    elevation := some 0, row := some 0, col := some 0 }

set_option maxRecDepth 1000000 in
unseal Rat.mul Rat.add Rat.sub Rat.inv Rat.ofScientific in
/-- Witness for C4 at the concrete run, at its water cell `hex-1-0`. -/
theorem generateMap_resource_exclusivity_witness :
    wCellWater.resource.toList.length ≤ 1 ∧
    (wCellWater.terrain = TerrainType.water →
      wCellWater.tileType = none ∧ wCellWater.resource = none) :=
  generateMap_resource_exclusivity wOps "a" 4 4 2 0 0 1 (1/2) wTT wRS 0
    wCellWater (by decide)

set_option maxRecDepth 1000000 in
unseal Rat.mul Rat.add Rat.sub Rat.inv Rat.ofScientific in
/-- Witness for C5 at the concrete run: 2 of 4 cells are land and
`|2/4 − 1/2| = 0 ≤ 1/4`. -/
theorem generateMap_land_fraction_witness :
    0 ≤ (1/2 : ℚ) ∧ (1/2 : ℚ) ≤ 1 ∧
    0 < (generateMap wOps "a" 4 4 2 0 0 1 (1/2) wTT wRS 0).cells.length ∧
    |(((generateMap wOps "a" 4 4 2 0 0 1 (1/2) wTT wRS 0).cells.countP
          (fun c => c.terrain == TerrainType.land) : ℚ) /
        ((generateMap wOps "a" 4 4 2 0 0 1 (1/2) wTT wRS 0).cells.length : ℚ)) -
      (1/2 : ℚ)| ≤
      1 / ((generateMap wOps "a" 4 4 2 0 0 1 (1/2) wTT wRS 0).cells.length : ℚ) :=
  ⟨by norm_num, by norm_num, by decide,
    generateMap_land_fraction wOps "a" 4 4 2 0 0 1 (1/2) wTT wRS 0
      (by norm_num) (by norm_num) (by decide)⟩

/-! ## C3 — adjacency symmetry -/

set_option maxHeartbeats 2000000 in
/-- The parity-offset neighbor tables are symmetric: if `(nr, nc)` is a
neighbor offset of `(r, c)`, then `(r, c)` is a neighbor offset of
`(nr, nc)`. -/
theorem getHexNeighbors_symm (r c nr nc : ℕ)
    (hmem : ((nr : ℤ), (nc : ℤ)) ∈ getHexNeighbors r c) :
    ((r : ℤ), (c : ℤ)) ∈ getHexNeighbors nr nc := by
  unfold getHexNeighbors at hmem ⊢
  by_cases hodd : r % 2 = 1
  · rw [if_pos (by simpa using hodd)] at hmem
    simp only [List.mem_cons, List.not_mem_nil, or_false, Prod.mk.injEq] at hmem
    by_cases hnodd : nr % 2 = 1
    · rw [if_pos (by simpa using hnodd)]
      simp only [List.mem_cons, List.not_mem_nil, or_false, Prod.mk.injEq]
      rcases hmem with ⟨ha, hb⟩ | ⟨ha, hb⟩ | ⟨ha, hb⟩ | ⟨ha, hb⟩ | ⟨ha, hb⟩ | ⟨ha, hb⟩ <;> omega
    · rw [if_neg (by simpa using hnodd)]
      simp only [List.mem_cons, List.not_mem_nil, or_false, Prod.mk.injEq]
      rcases hmem with ⟨ha, hb⟩ | ⟨ha, hb⟩ | ⟨ha, hb⟩ | ⟨ha, hb⟩ | ⟨ha, hb⟩ | ⟨ha, hb⟩ <;> omega
  · rw [if_neg (by simpa using hodd)] at hmem
    simp only [List.mem_cons, List.not_mem_nil, or_false, Prod.mk.injEq] at hmem
    by_cases hnodd : nr % 2 = 1
    · rw [if_pos (by simpa using hnodd)]
      simp only [List.mem_cons, List.not_mem_nil, or_false, Prod.mk.injEq]
      rcases hmem with ⟨ha, hb⟩ | ⟨ha, hb⟩ | ⟨ha, hb⟩ | ⟨ha, hb⟩ | ⟨ha, hb⟩ | ⟨ha, hb⟩ <;> omega
    · rw [if_neg (by simpa using hnodd)]
      simp only [List.mem_cons, List.not_mem_nil, or_false, Prod.mk.injEq]
      rcases hmem with ⟨ha, hb⟩ | ⟨ha, hb⟩ | ⟨ha, hb⟩ | ⟨ha, hb⟩ | ⟨ha, hb⟩ | ⟨ha, hb⟩ <;> omega

/-- **C3** — Adjacency is symmetric in every generated map: for every cell
`a` and every id `nid` in `a.neighbors`, the cell with id `nid` exists in
the map and lists `a.id` among its own neighbors. -/
theorem generateMap_adjacency_symmetric (ops : MathOps) (seed : String)
    (width height hexSize : ℚ) (numContinents numIslands : ℕ)
    (landVariance landTilePercentage : ℚ) (tileTypes : TileTypeWeights)
    (resourceScarcity : ResourceScarcity) (now : ℕ) :
    ∀ a ∈ (generateMap ops seed width height hexSize numContinents numIslands
        landVariance landTilePercentage tileTypes resourceScarcity now).cells,
      ∀ nid ∈ a.neighbors,
        ∃ b ∈ (generateMap ops seed width height hexSize numContinents numIslands
            landVariance landTilePercentage tileTypes resourceScarcity now).cells,
          b.id = nid ∧ a.id ∈ b.neighbors := by
  intro a ha nid hnid
  rw [generateMap_cells_eq] at ha ⊢
  obtain ⟨e', he', rfl⟩ := List.mem_map.mp ha
  obtain ⟨e, he, hrow, hcol, hid, -⟩ := assignCells_mem_forward _ _ _ _ _ _ _ _ _ he'
  have hes := (List.perm_insertionSort
    (fun x y : CellWithElevation => y.elevation ≤ x.elevation) _).mem_iff.mp he
  obtain ⟨row, col, hrlt, hclt, hpres, rfl⟩ := mem_genEntries.mp hes
  have hrow' : e'.row = row := by rw [hrow]; rfl
  have hcol' : e'.col = col := by rw [hcol]; rfl
  have hid' : e'.cell.id = hexId row col := by rw [hid]; rfl
  have hnid' : nid ∈ neighborIdsAt ⟨ops, width, height, hexSize⟩ row col := by
    have hmem : nid ∈ neighborIdsAt ⟨ops, width, height, hexSize⟩ e'.row e'.col := hnid
    rwa [hrow', hcol'] at hmem
  unfold neighborIdsAt at hnid'
  obtain ⟨q, hq, hcond⟩ := List.mem_filterMap.mp hnid'
  by_cases hC : 0 ≤ q.1 ∧ q.1 < ((hexRows ⟨ops, width, height, hexSize⟩ : ℕ) : ℤ) ∧
      0 ≤ q.2 ∧ q.2 < ((hexCols ⟨ops, width, height, hexSize⟩ : ℕ) : ℤ) ∧
      hexPresent ⟨ops, width, height, hexSize⟩ q.1.toNat q.2.toNat = true
  swap
  · rw [if_neg hC] at hcond
    cases hcond
  rw [if_pos hC] at hcond
  obtain ⟨hq1, hq2, hq3, hq4, hq5⟩ := hC
  have hnid_eq : nid = hexId q.1.toNat q.2.toNat := (Option.some_inj.mp hcond).symm
  have hbes : genEntryAt ⟨ops, width, height, hexSize⟩
      (generateContinents ops width height numContinents (jsHashCodes (strCodes seed)))
      (generateIslands ops width height numIslands (jsHashCodes (strCodes seed))
        (generateContinents ops width height numContinents (jsHashCodes (strCodes seed))))
      landVariance q.1.toNat q.2.toNat ∈
      genEntries ⟨ops, width, height, hexSize⟩
        (generateContinents ops width height numContinents (jsHashCodes (strCodes seed)))
        (generateIslands ops width height numIslands (jsHashCodes (strCodes seed))
          (generateContinents ops width height numContinents (jsHashCodes (strCodes seed))))
        landVariance :=
    mem_genEntries.mpr ⟨q.1.toNat, q.2.toNat, by omega, by omega, hq5, rfl⟩
  have hbsorted := (List.perm_insertionSort
    (fun x y : CellWithElevation => y.elevation ≤ x.elevation) _).mem_iff.mpr hbes
  obtain ⟨b', hb', hbrow, hbcol, hbid⟩ :=
    assignCells_mem_backward tileTypes resourceScarcity width height _ _ 0
      (jsHashCodes (strCodes seed)) _ hbsorted
  refine ⟨_, List.mem_map_of_mem _ hb', ?_, ?_⟩
  · show b'.cell.id = nid
    rw [hbid, hnid_eq]
    rfl
  · show e'.cell.id ∈ neighborIdsAt ⟨ops, width, height, hexSize⟩ b'.row b'.col
    have hbrow' : b'.row = q.1.toNat := by rw [hbrow]; rfl
    have hbcol' : b'.col = q.2.toNat := by rw [hbcol]; rfl
    rw [hbrow', hbcol', hid']
    unfold neighborIdsAt
    apply List.mem_filterMap.mpr
    refine ⟨((row : ℤ), (col : ℤ)), ?_, ?_⟩
    · have e1 : ((q.1.toNat : ℕ) : ℤ) = q.1 := Int.toNat_of_nonneg hq1
      have e2 : ((q.2.toNat : ℕ) : ℤ) = q.2 := Int.toNat_of_nonneg hq3
      apply getHexNeighbors_symm row col q.1.toNat q.2.toNat
      rw [e1, e2]
      simpa using hq
    · have hcnd : 0 ≤ ((row : ℕ) : ℤ) ∧
          ((row : ℕ) : ℤ) < ((hexRows ⟨ops, width, height, hexSize⟩ : ℕ) : ℤ) ∧
          0 ≤ ((col : ℕ) : ℤ) ∧
          ((col : ℕ) : ℤ) < ((hexCols ⟨ops, width, height, hexSize⟩ : ℕ) : ℤ) ∧
          hexPresent ⟨ops, width, height, hexSize⟩ ((row : ℕ) : ℤ).toNat
            ((col : ℕ) : ℤ).toNat = true := by
        refine ⟨by positivity, by exact_mod_cast hrlt, by positivity, by exact_mod_cast hclt, ?_⟩
        simpa using hpres
      rw [if_pos hcnd]
      simp

set_option maxRecDepth 1000000 in
unseal Rat.mul Rat.add Rat.sub Rat.inv Rat.ofScientific in
/-- Witness for C3 at the concrete run: cell `hex-0-0` lists `hex-0-1`,
which exists and lists `hex-0-0` back. -/
theorem generateMap_adjacency_symmetric_witness :
    ∃ b ∈ (generateMap wOps "a" 4 4 2 0 0 1 (1/2) wTT wRS 0).cells,
      b.id = "hex-0-1" ∧ wCellLand.id ∈ b.neighbors :=
  generateMap_adjacency_symmetric wOps "a" 4 4 2 0 0 1 (1/2) wTT wRS 0
    wCellLand (by decide) "hex-0-1" (by decide)

/-! ## C2 — determinism of `generateMap` -/

/-- **C2** — Two runs of `generateMap` with the same seed and parameters
produce identical cells (hence identical cell count, ids, polygons and
terrain/tileType/resource assignments); only the wall clock — which feeds
just the `MapData` id and timestamps — may differ between the runs. -/
theorem generateMap_deterministic (ops : MathOps) (seed : String)
    (width height hexSize : ℚ) (numContinents numIslands : ℕ)
    (landVariance landTilePercentage : ℚ) (tileTypes : TileTypeWeights)
    (resourceScarcity : ResourceScarcity) (t₁ t₂ : ℕ) :
    (generateMap ops seed width height hexSize numContinents numIslands
        landVariance landTilePercentage tileTypes resourceScarcity t₁).cells =
      (generateMap ops seed width height hexSize numContinents numIslands
        landVariance landTilePercentage tileTypes resourceScarcity t₂).cells ∧
    (generateMap ops seed width height hexSize numContinents numIslands
        landVariance landTilePercentage tileTypes resourceScarcity t₁).cells.length =
      (generateMap ops seed width height hexSize numContinents numIslands
        landVariance landTilePercentage tileTypes resourceScarcity t₂).cells.length ∧
    (generateMap ops seed width height hexSize numContinents numIslands
        landVariance landTilePercentage tileTypes resourceScarcity t₁).cells.map
        (fun c => (c.id, c.polygon, c.terrain, c.tileType, c.resource)) =
      (generateMap ops seed width height hexSize numContinents numIslands
        landVariance landTilePercentage tileTypes resourceScarcity t₂).cells.map
        (fun c => (c.id, c.polygon, c.terrain, c.tileType, c.resource)) :=
  ⟨rfl, rfl, rfl⟩

/-! ## C8 — island placement by rejection sampling -/

theorem islandPlaceLoop_attempts_le (ops : MathOps) (width height : ℚ)
    (continents : List Continent) (fuel : ℕ) (cx cy : ℚ) (tc : Bool)
    (attempts : ℕ) (rng : ℤ) :
    (islandPlaceLoop ops width height continents fuel cx cy tc attempts rng).2.2.2.1 ≤
      attempts + fuel := by
  induction fuel generalizing cx cy tc attempts rng with
  | zero => simp [islandPlaceLoop]
  | succ n ih =>
      rw [islandPlaceLoop]
      split
      · exact le_trans (ih _ _ _ _ _) (by omega)
      · simp

/-- **C8 (amended)** — A candidate island center is rejected exactly when
its distance to some continent center is below that continent's average
radius; at most 50 attempts are made; and an island is appended exactly
when the attempt loop finishes with `attempts < 50` — so an island whose
candidate is accepted on the 50th attempt is still silently dropped, and
only islands accepted within the first 49 attempts are guaranteed
placement. -/
theorem generateIslands_placement_characterization (ops : MathOps)
    (width height : ℚ) (seed rng : ℤ) (continents : List Continent)
    (acc : List Island) (i : ℕ) :
    (∀ cx cy, islandTooClose ops cx cy continents = true ↔
      ∃ c ∈ continents,
        ops.sqrt ((cx - c.centerX) * (cx - c.centerX) + (cy - c.centerY) * (cy - c.centerY)) <
          (c.radiusX + c.radiusY) / 2) ∧
    (islandPlace ops width height continents rng).2.2.2.1 ≤ 50 ∧
    ((generateIslandsStep ops width height seed continents (rng, acc) i).2 ≠ acc ↔
      (islandPlace ops width height continents rng).2.2.2.1 < 50) ∧
    ((islandPlace ops width height continents rng).2.2.2.1 < 50 →
      (generateIslandsStep ops width height seed continents (rng, acc) i).2 =
        acc ++ [{ centerX := (islandPlace ops width height continents rng).1
                  centerY := (islandPlace ops width height continents rng).2.1
                  radius := min width height * (3/100) +
                    (rand (islandPlace ops width height continents rng).2.2.2.2).1 *
                      (min width height * (8/100) - min width height * (3/100))
                  seed := (seed : ℚ) + (i : ℚ) * 54321 }]) := by
  refine ⟨?_, ?_, ?_, ?_⟩
  · intro cx cy
    simp only [islandTooClose, List.any_eq_true, decide_eq_true_eq]
  · exact islandPlaceLoop_attempts_le ops width height continents 50 0 0 true 0 rng
  · unfold generateIslandsStep
    constructor
    · intro hne
      by_contra hlt
      have h50 : 50 ≤ (islandPlace ops width height continents rng).2.2.2.1 := by omega
      simp only [h50, if_pos] at hne
      exact hne rfl
    · intro hlt
      have h50 : ¬ (50 ≤ (islandPlace ops width height continents rng).2.2.2.1) := by omega
      simp only [h50, if_neg, not_false_iff]
      simp
  · intro hlt
    have h50 : ¬ (50 ≤ (islandPlace ops width height continents rng).2.2.2.1) := by omega
    unfold generateIslandsStep
    simp only [h50, if_neg, not_false_iff]

/-- A math oracle for concrete runs: `sqrt` is the identity, so the
code's comparison `sqrt(d²) < r` becomes `d² < r`; both sides of each
comparison below sit on the same side as with the real square root, since
the radii are chosen directly against the squared distances. -/
def c8Ops : MathOps := ⟨fun _ => 0, fun _ => 0, id, fun _ _ => 0, 0⟩

/-- A continent whose average radius separates the first 49 candidate
centers drawn for seed 0 (all closer) from the 50th (farther). -/
def c8Continent : Continent :=
  { centerX := 3000, centerY := -6000, radiusX := 57402264, radiusY := 57402264,
    rotation := 0, seed := 0 }

set_option maxRecDepth 1000000 in
unseal Rat.mul Rat.add Rat.sub Rat.inv Rat.ofScientific in
/-- Counterexample to C8 as stated: for seed 0, map 2400×1500 and the
single continent `c8Continent`, the island's 50th candidate center is
accepted (`tooClose = false`), i.e. the island is accepted within the
50-attempt budget, yet the `attempts >= 50` check drops it and
`generateIslands` returns no island. -/
theorem generateIslands_drop_on_50th_counterexample :
    (islandPlace c8Ops 2400 1500 [c8Continent] 99999).2.2.1 = false ∧
    (islandPlace c8Ops 2400 1500 [c8Continent] 99999).2.2.2.1 = 50 ∧
    generateIslands c8Ops 2400 1500 1 0 [c8Continent] = [] := by
  refine ⟨?_, ?_, ?_⟩ <;> decide

/-- Witness for C8's amended statement: with no continents the first
candidate is accepted after one attempt, and the single island is placed. -/
theorem generateIslands_placement_witness :
    (islandPlace ⟨fun _ => 0, fun _ => 0, id, fun _ _ => 0, 0⟩ 2400 1500 [] 99999).2.2.2.1 < 50 ∧
    (generateIslandsStep ⟨fun _ => 0, fun _ => 0, id, fun _ _ => 0, 0⟩ 2400 1500 0 []
      (99999, []) 0).2 ≠ [] := by
  have h := generateIslands_placement_characterization
    ⟨fun _ => 0, fun _ => 0, id, fun _ _ => 0, 0⟩ 2400 1500 0 99999 [] [] 0
  have hlt : (islandPlace ⟨fun _ => 0, fun _ => 0, id, fun _ _ => 0, 0⟩ 2400 1500 [] 99999).2.2.2.1 < 50 := by
    decide
  exact ⟨hlt, h.2.2.1.mpr hlt⟩

/-! ## Tile cache invalidation (`tileCache`) and the tile GET route

The database (`tile_cache_invalidation`, `map_tiles`, `maps`, `territories`,
`players` tables) is modelled as in-memory lists; the route's
fire-and-forget cache upsert and invalidation clear take effect
synchronously, and the sequence of database operations a request performs
is recorded as an effect trace. -/

inductive MapView
  | terrain
  | political
  | resources
  deriving DecidableEq, Repr

inductive InvalidationReason
  | territoryChange
  | settlementChange
  | resourceChange
  deriving DecidableEq, Repr

/-- A row of `tile_cache_invalidation` (the generated id column, which only
ensures row uniqueness, is omitted). -/
structure InvRecord where
  map_id : String
  tile_x : ℤ
  tile_y : ℤ
  zoom_level : ℕ
  view_mode : MapView
  reason : InvalidationReason
  deriving DecidableEq, Repr

/-- A row of `map_tiles`; the primary key `id` is the tuple of the five key
fields (`getTileKey`). -/
structure TileRow where
  map_id : String
  zoom_level : ℕ
  tile_x : ℤ
  tile_y : ℤ
  view_mode : MapView
  tile_data : List ℕ
  deriving DecidableEq, Repr

/-- A row of `maps`. -/
structure MapRow where
  id : String
  seed : String
  width : ℚ
  height : ℚ
  cells : List HexCell
  deriving DecidableEq, Repr

structure DBState where
  invalidations : List InvRecord
  tiles : List TileRow
  maps : List MapRow
  territories : List (String × String)
  players : List (String × String)
  deriving DecidableEq, Repr

/-- The key equality used by `isTileInvalidated` / `clearTileInvalidation`
(`eq` filters on map id, tile coordinates, zoom level and view mode). -/
def invMatches (mapId : String) (tileX tileY : ℤ) (zoomLevel : ℕ) (viewMode : MapView)
    (r : InvRecord) : Bool :=
  r.map_id == mapId && r.tile_x == tileX && r.tile_y == tileY &&
    r.zoom_level == zoomLevel && r.view_mode == viewMode

/-- `markTileForInvalidation`: insert one invalidation record. -/
def markTileForInvalidation (st : DBState) (mapId : String) (tileX tileY : ℤ)
    (zoomLevel : ℕ) (viewMode : MapView) (reason : InvalidationReason) : DBState :=
  { st with invalidations := st.invalidations ++
      [{ map_id := mapId, tile_x := tileX, tile_y := tileY, zoom_level := zoomLevel,
         view_mode := viewMode, reason := reason }] }

/-- The view-mode list `[Terrain, Political, Resources]` iterated by the
invalidation helpers. -/
def viewModes : List MapView := [MapView.terrain, MapView.political, MapView.resources]

/-- `invalidateCellTiles`: for every zoom level 0–4, derive the tile
containing the world point and insert one record per view mode. -/
def invalidateCellTiles (st : DBState) (mapId : String) (cellX cellY : ℚ)
    (reason : InvalidationReason) : DBState :=
  (List.range 5).foldl
    (fun st₁ zoomLevel =>
      let tileCoord := worldToTile cellX cellY zoomLevel
      viewModes.foldl
        (fun st₂ viewMode =>
          markTileForInvalidation st₂ mapId tileCoord.x tileCoord.y zoomLevel viewMode reason)
        st₁)
    st

/-- `isTileInvalidated`: true exactly when some record matches the key
(`limit(1).single()` succeeds on one row, errors on zero). -/
def isTileInvalidated (st : DBState) (mapId : String) (tileX tileY : ℤ)
    (zoomLevel : ℕ) (viewMode : MapView) : Bool :=
  st.invalidations.any (invMatches mapId tileX tileY zoomLevel viewMode)

/-- `clearTileInvalidation`: delete every record matching the key. -/
def clearTileInvalidation (st : DBState) (mapId : String) (tileX tileY : ℤ)
    (zoomLevel : ℕ) (viewMode : MapView) : DBState :=
  let keep := fun r => !(invMatches mapId tileX tileY zoomLevel viewMode r)
  { st with invalidations := st.invalidations.filter keep }

/-! ### The tile GET route -/

inductive RouteEffect
  | invalidationCheck
  | cacheRead
  | mapLoad
  | territoriesLoad
  | playersLoad
  | generate
  | cacheWrite
  | invalidationClear
  deriving DecidableEq, Repr

inductive RouteResult
  | json (status : ℕ) (error : String)
  | png (bytes : List ℕ)
  deriving DecidableEq, Repr

/-- HTTP status of a route result (`NextResponse` with image bytes is 200). -/
def RouteResult.status : RouteResult → ℕ
  | json s _ => s
  | png _ => 200

/-- The input assembled for `generateTile`: the loaded map row, the tile
address and the two lookup maps built from the `territories` and `players`
tables.  The rasterizer itself (canvas rendering and PNG encoding) is an
abstract function `GenArgs → List ℕ` supplied by the caller of the model. -/
structure GenArgs where
  map : MapRow
  tileX : ℤ
  tileY : ℤ
  zoomLevel : ℕ
  viewMode : MapView
  territories : List (String × String)
  playerColors : List (String × String)
  deriving DecidableEq, Repr

/-- One `Map.set` step: overwrite the value when the key exists, append
otherwise. -/
def mapSet (m : List (String × String)) (kv : String × String) : List (String × String) :=
  if m.any (fun p => p.1 == kv.1) then
    m.map (fun p => if p.1 == kv.1 then (p.1, kv.2) else p)
  else m ++ [kv]

/-- The `forEach`/`set` loops building `territoriesMap` / `playerColorsMap`. -/
def buildLookup (rows : List (String × String)) : List (String × String) :=
  rows.foldl mapSet []

/-- Cache lookup by the tile's primary key. -/
def findTile (st : DBState) (mapId : String) (tileX tileY : ℤ) (zoomLevel : ℕ)
    (viewMode : MapView) : Option TileRow :=
  st.tiles.find? (fun t => t.map_id == mapId && t.zoom_level == zoomLevel &&
    t.tile_x == tileX && t.tile_y == tileY && t.view_mode == viewMode)

/-- Map lookup by id. -/
def findMap (st : DBState) (mapId : String) : Option MapRow :=
  st.maps.find? (fun m => m.id == mapId)

/-- Upsert of a `map_tiles` row (`onConflict: "id"`). -/
def upsertTile (st : DBState) (row : TileRow) : DBState :=
  let sameKey := fun t : TileRow => t.map_id == row.map_id &&
    t.zoom_level == row.zoom_level && t.tile_x == row.tile_x &&
    t.tile_y == row.tile_y && t.view_mode == row.view_mode
  if st.tiles.any sameKey then
    { st with tiles := st.tiles.map (fun t => if sameKey t then row else t) }
  else { st with tiles := st.tiles ++ [row] }

/-- The body of the GET handler after parameter validation (route lines
44–206): invalidation check, cache lookup (skipped and distrusted when
invalidated; an empty cached buffer falls through to regeneration), map
load (404 when absent), territory/player loads, tile generation (500 on an
empty result), cache upsert, and clearing of the key's invalidation
records when the request found the key invalidated. -/
def routeCore (gen : GenArgs → List ℕ) (st : DBState) (mapId : String)
    (tileX tileY : ℤ) (zoomLevel : ℕ) (viewMode : MapView) :
    RouteResult × DBState × List RouteEffect :=
  let invalidated := isTileInvalidated st mapId tileX tileY zoomLevel viewMode
  let cached? : Option (List ℕ) :=
    if invalidated then none
    else match findTile st mapId tileX tileY zoomLevel viewMode with
      | some row => if row.tile_data ≠ [] then some row.tile_data else none
      | none => none
  let trace1 := [RouteEffect.invalidationCheck] ++
    (if invalidated then [] else [RouteEffect.cacheRead])
  match cached? with
  | some bytes => (RouteResult.png bytes, st, trace1)
  | none =>
    match findMap st mapId with
    | none => (RouteResult.json 404 "Map not found", st, trace1 ++ [RouteEffect.mapLoad])
    | some m =>
      let territoriesMap := buildLookup st.territories
      let playerColorsMap := buildLookup st.players
      let bytes := gen ⟨m, tileX, tileY, zoomLevel, viewMode, territoriesMap, playerColorsMap⟩
      let trace2 := trace1 ++ [RouteEffect.mapLoad, RouteEffect.territoriesLoad,
        RouteEffect.playersLoad, RouteEffect.generate]
      if bytes = [] then
        (RouteResult.json 500 "Failed to generate tile", st, trace2)
      else
        let st1 := upsertTile st
          { map_id := mapId, zoom_level := zoomLevel, tile_x := tileX, tile_y := tileY,
            view_mode := viewMode, tile_data := bytes }
        let st2 := if invalidated
          then clearTileInvalidation st1 mapId tileX tileY zoomLevel viewMode
          else st1
        (RouteResult.png bytes, st2,
          trace2 ++ [RouteEffect.cacheWrite] ++
            (if invalidated then [RouteEffect.invalidationClear] else []))

/-! ### Parameter validation (route lines 12–41) -/

/-- The white-space characters skipped by `parseInt`. -/
def isSpaceChar (c : Char) : Bool :=
  c == ' ' || c == '\t' || c == '\n' || c == '\r' || c == '\x0b' || c == '\x0c'

def digitVal (c : Char) : Option ℕ :=
  if '0' ≤ c ∧ c ≤ '9' then some (c.toNat - 48) else none

def hexVal (c : Char) : Option ℕ :=
  if '0' ≤ c ∧ c ≤ '9' then some (c.toNat - 48)
  else if 'a' ≤ c ∧ c ≤ 'f' then some (c.toNat - 87)
  else if 'A' ≤ c ∧ c ≤ 'F' then some (c.toNat - 55)
  else none

/-- Longest digit prefix in the given base; `none` when there is none. -/
def takeDigits (f : Char → Option ℕ) (base : ℕ) : List Char → Option ℕ → Option ℕ
  | [], acc => acc
  | c :: cs, acc =>
    match f c with
    | some d => takeDigits f base cs (some (acc.getD 0 * base + d))
    | none => acc

/-- JavaScript's `parseInt(s)` (radix unspecified): skip white space, an
optional sign, a `0x`/`0X` prefix selecting base 16, then the longest run
of digits; `none` models `NaN`. -/
def jsParseInt (s : String) : Option ℤ :=
  let cs := s.data.dropWhile isSpaceChar
  let signed : ℤ × List Char :=
    match cs with
    | '-' :: rest => (-1, rest)
    | '+' :: rest => (1, rest)
    | _ => (1, cs)
  match signed.2 with
  | '0' :: 'x' :: rest => (takeDigits hexVal 16 rest none).map (fun n => signed.1 * n)
  | '0' :: 'X' :: rest => (takeDigits hexVal 16 rest none).map (fun n => signed.1 * n)
  | _ => (takeDigits digitVal 10 signed.2 none).map (fun n => signed.1 * n)

/-- The `Object.values(MapView).includes` membership test, as a parse of
the three string literals. -/
def mapViewOfString : String → Option MapView
  | "terrain" => some MapView.terrain
  | "political" => some MapView.political
  | "resources" => some MapView.resources
  | _ => none

/-- `searchParams.get("view") || "terrain"`: an absent parameter is `null`
and an empty string is falsy; both default to `"terrain"`. -/
def resolveViewParam (viewParam : Option String) : String :=
  match viewParam with
  | none => "terrain"
  | some s => if s = "" then "terrain" else s

/-- The GET handler: parse `zoom`, `x`, `y` with `parseInt`, reject zoom
values that are `NaN` or outside `[0,4]`, reject `NaN` coordinates, reject
unknown view modes — each with a 400 response, no state change and an
empty effect trace — then run the core. -/
def routeGET (gen : GenArgs → List ℕ) (st : DBState) (mapId zoomStr xStr yStr : String)
    (viewParam : Option String) : RouteResult × DBState × List RouteEffect :=
  match jsParseInt zoomStr with
  | none => (RouteResult.json 400 "Invalid zoom level. Must be between 0 and 4.", st, [])
  | some z =>
    if z < 0 ∨ 4 < z then
      (RouteResult.json 400 "Invalid zoom level. Must be between 0 and 4.", st, [])
    else
      match jsParseInt xStr, jsParseInt yStr with
      | none, _ => (RouteResult.json 400 "Invalid tile coordinates.", st, [])
      | some _, none => (RouteResult.json 400 "Invalid tile coordinates.", st, [])
      | some tx, some ty =>
        match mapViewOfString (resolveViewParam viewParam) with
        | none => (RouteResult.json 400 "Invalid view mode.", st, [])
        | some viewMode => routeCore gen st mapId tx ty z.toNat viewMode

/-! ## C1 — invalidation round-trip -/

set_option maxHeartbeats 1000000 in
/-- Inserting cell invalidations touches only the invalidation table. -/
theorem invalidateCellTiles_preserves (st : DBState) (mapId : String) (x y : ℚ)
    (reason : InvalidationReason) :
    (invalidateCellTiles st mapId x y reason).tiles = st.tiles ∧
    (invalidateCellTiles st mapId x y reason).maps = st.maps ∧
    (invalidateCellTiles st mapId x y reason).territories = st.territories ∧
    (invalidateCellTiles st mapId x y reason).players = st.players := by
  refine ⟨?_, ?_, ?_, ?_⟩ <;>
    simp [invalidateCellTiles, markTileForInvalidation, viewModes, List.range_succ]

/-- The record inserted for one derived key. -/
def derivedInvRecord (mapId : String) (x y : ℚ) (zoomLevel : ℕ) (viewMode : MapView)
    (reason : InvalidationReason) : InvRecord :=
  { map_id := mapId, tile_x := (worldToTile x y zoomLevel).x,
    tile_y := (worldToTile x y zoomLevel).y, zoom_level := zoomLevel,
    view_mode := viewMode, reason := reason }

set_option maxHeartbeats 1000000 in
/-- The fifteen records appended by `invalidateCellTiles`, in insertion
order. -/
theorem invalidateCellTiles_invalidations (st : DBState) (mapId : String) (x y : ℚ)
    (reason : InvalidationReason) :
    (invalidateCellTiles st mapId x y reason).invalidations =
      st.invalidations ++
        ((List.range 5).bind fun z => viewModes.map fun v =>
          derivedInvRecord mapId x y z v reason) := by
  simp [invalidateCellTiles, markTileForInvalidation, viewModes, List.range_succ,
    derivedInvRecord]

set_option maxHeartbeats 1000000 in
/-- After `invalidateCellTiles`, every derived key (zoom 0–4 × view mode)
tests as invalidated. -/
theorem invalidateCellTiles_isInvalidated (st : DBState) (mapId : String) (x y : ℚ)
    (reason : InvalidationReason) (zoomLevel : ℕ) (hz : zoomLevel ≤ 4) (viewMode : MapView) :
    isTileInvalidated (invalidateCellTiles st mapId x y reason) mapId
      (worldToTile x y zoomLevel).x (worldToTile x y zoomLevel).y zoomLevel viewMode = true := by
  rw [isTileInvalidated, invalidateCellTiles_invalidations, List.any_append]
  have hmem : (((List.range 5).bind fun z => viewModes.map fun v =>
      derivedInvRecord mapId x y z v reason).any
        (invMatches mapId (worldToTile x y zoomLevel).x (worldToTile x y zoomLevel).y
          zoomLevel viewMode)) = true := by
    rw [List.any_eq_true]
    refine ⟨derivedInvRecord mapId x y zoomLevel viewMode reason, ?_, ?_⟩
    · rw [List.mem_bind]
      exact ⟨zoomLevel, by simp [List.mem_range]; omega,
        List.mem_map_of_mem _ (by cases viewMode <;> simp [viewModes])⟩
    · simp [invMatches, derivedInvRecord]
  rw [hmem, Bool.or_true]

/-- A cache upsert only touches the tile table. -/
theorem upsertTile_invalidations (st : DBState) (row : TileRow) :
    (upsertTile st row).invalidations = st.invalidations := by
  unfold upsertTile
  dsimp only
  split <;> rfl

/-- The generation input assembled by the route for the derived key of a
world point. -/
def derivedGenArgs (st : DBState) (m : MapRow) (x y : ℚ) (zoomLevel : ℕ)
    (viewMode : MapView) : GenArgs :=
  { map := m, tileX := (worldToTile x y zoomLevel).x,
    tileY := (worldToTile x y zoomLevel).y, zoomLevel := zoomLevel,
    viewMode := viewMode, territories := buildLookup st.territories,
    playerColors := buildLookup st.players }

set_option maxHeartbeats 1000000 in
/-- **C1** — `invalidateCellTiles(map, x, y, reason)` makes
`isTileInvalidated` true for all 15 derived keys (zoom 0–4 × the three view
modes, the tile coordinate derived from the world point per zoom); a
subsequent successful fetch of any one of those keys (map present,
generation produces bytes) returns the freshly rendered bytes — the cache
is not consulted — and removes exactly that key's invalidation records,
leaving all other records in place. -/
theorem tileCache_invalidation_roundtrip (st : DBState) (mapId : String) (x y : ℚ)
    (reason : InvalidationReason) (zoomLevel : ℕ) (hz : zoomLevel ≤ 4) (viewMode : MapView)
    (gen : GenArgs → List ℕ) (m : MapRow)
    (hmap : findMap (invalidateCellTiles st mapId x y reason) mapId = some m)
    (hgen : gen (derivedGenArgs (invalidateCellTiles st mapId x y reason) m x y
      zoomLevel viewMode) ≠ []) :
    (∀ z, z ≤ 4 → ∀ v, isTileInvalidated (invalidateCellTiles st mapId x y reason) mapId
        (worldToTile x y z).x (worldToTile x y z).y z v = true) ∧
    (routeCore gen (invalidateCellTiles st mapId x y reason) mapId
        (worldToTile x y zoomLevel).x (worldToTile x y zoomLevel).y zoomLevel viewMode).1 =
      RouteResult.png (gen (derivedGenArgs (invalidateCellTiles st mapId x y reason) m x y
        zoomLevel viewMode)) ∧
    (routeCore gen (invalidateCellTiles st mapId x y reason) mapId
        (worldToTile x y zoomLevel).x (worldToTile x y zoomLevel).y zoomLevel
        viewMode).2.1.invalidations =
      (invalidateCellTiles st mapId x y reason).invalidations.filter
        (fun r => !(invMatches mapId (worldToTile x y zoomLevel).x
          (worldToTile x y zoomLevel).y zoomLevel viewMode r)) := by
  have hinv := invalidateCellTiles_isInvalidated st mapId x y reason zoomLevel hz viewMode
  have hgen' : ¬ (gen (derivedGenArgs (invalidateCellTiles st mapId x y reason) m x y
      zoomLevel viewMode) = []) := hgen
  refine ⟨fun z hz' v => invalidateCellTiles_isInvalidated st mapId x y reason z hz' v, ?_, ?_⟩
  · simp only [routeCore, hinv, if_true, hmap]
    rw [if_neg (by exact hgen' : ¬ _ = [])]
    rfl
  · simp only [routeCore, hinv, if_true, hmap]
    rw [if_neg (by exact hgen' : ¬ _ = [])]
    show (clearTileInvalidation _ mapId _ _ zoomLevel viewMode).invalidations = _
    simp only [clearTileInvalidation, upsertTile_invalidations]

/-- A one-map store for the C1 witness. -/
def c1St : DBState :=
  ⟨[], [], [⟨"m", "s", 2400, 1500, []⟩], [], []⟩

set_option maxRecDepth 1000000 in
unseal Rat.mul Rat.add Rat.sub Rat.inv Rat.ofScientific in
/-- Witness for C1: map `"m"`, world point (100, 200), territory-change
reason, fetched at zoom 0 in terrain view. -/
theorem tileCache_invalidation_roundtrip_witness :
    (∀ z, z ≤ 4 → ∀ v,
      isTileInvalidated (invalidateCellTiles c1St "m" 100 200
          InvalidationReason.territoryChange) "m"
        (worldToTile 100 200 z).x (worldToTile 100 200 z).y z v = true) ∧
    (routeCore (fun _ => [7])
        (invalidateCellTiles c1St "m" 100 200 InvalidationReason.territoryChange) "m"
        (worldToTile 100 200 0).x (worldToTile 100 200 0).y 0 MapView.terrain).1 =
      RouteResult.png ((fun _ => [7]) (derivedGenArgs
        (invalidateCellTiles c1St "m" 100 200 InvalidationReason.territoryChange)
        ⟨"m", "s", 2400, 1500, []⟩ 100 200 0 MapView.terrain)) ∧
    (routeCore (fun _ => [7])
        (invalidateCellTiles c1St "m" 100 200 InvalidationReason.territoryChange) "m"
        (worldToTile 100 200 0).x (worldToTile 100 200 0).y 0
        MapView.terrain).2.1.invalidations =
      (invalidateCellTiles c1St "m" 100 200
          InvalidationReason.territoryChange).invalidations.filter
        (fun r => !(invMatches "m" (worldToTile 100 200 0).x (worldToTile 100 200 0).y 0
          MapView.terrain r)) :=
  tileCache_invalidation_roundtrip c1St "m" 100 200 InvalidationReason.territoryChange
    0 (by norm_num) MapView.terrain (fun _ => [7]) ⟨"m", "s", 2400, 1500, []⟩
    (by decide) (by decide)

/-! ## C7 — route parameter validation -/

/-- **C7 (amended)** — The tile GET endpoint responds 400 with no database
work and no state change whenever `parseInt(zoom)` is `NaN` or outside
`[0,4]`, whenever `x` or `y` parse to `NaN`, or whenever the resolved view
parameter (defaulting to `"terrain"` when absent or empty) is not one of
the three view-mode literals.  (The original claim — rejection whenever the
zoom *segment* does not denote an integer — fails: `parseInt` accepts any
string with an integer prefix, e.g. `"2.9"`; see the counterexample.) -/
theorem route_validation_rejects (gen : GenArgs → List ℕ) (st : DBState)
    (mapId zoomStr xStr yStr : String) (viewParam : Option String)
    (hbad : (match jsParseInt zoomStr with
             | none => True
             | some z => z < 0 ∨ 4 < z) ∨
      jsParseInt xStr = none ∨ jsParseInt yStr = none ∨
      mapViewOfString (resolveViewParam viewParam) = none) :
    (routeGET gen st mapId zoomStr xStr yStr viewParam).1.status = 400 ∧
    (routeGET gen st mapId zoomStr xStr yStr viewParam).2.1 = st ∧
    (routeGET gen st mapId zoomStr xStr yStr viewParam).2.2 = [] := by
  unfold routeGET
  rcases hz : jsParseInt zoomStr with _ | z
  · exact ⟨rfl, rfl, rfl⟩
  · rw [hz] at hbad
    dsimp only
    by_cases hzr : z < 0 ∨ 4 < z
    · rw [if_pos hzr]
      exact ⟨rfl, rfl, rfl⟩
    · rw [if_neg hzr]
      have hbad' : jsParseInt xStr = none ∨ jsParseInt yStr = none ∨
          mapViewOfString (resolveViewParam viewParam) = none := by
        rcases hbad with h | h
        · exact absurd h hzr
        · exact h
      rcases hx : jsParseInt xStr with _ | tx
      · exact ⟨rfl, rfl, rfl⟩
      · rcases hy : jsParseInt yStr with _ | ty
        · exact ⟨rfl, rfl, rfl⟩
        · rcases hv : mapViewOfString (resolveViewParam viewParam) with _ | v
          · exact ⟨rfl, rfl, rfl⟩
          · rw [hx, hy, hv] at hbad'
            rcases hbad' with h | h | h <;> cases h

/-- Witness for C7's amended statement: zoom `"7"` is parsed but out of
range, so the request is rejected with 400, untouched state and no effects. -/
theorem route_validation_rejects_witness :
    (routeGET (fun _ => [1]) ⟨[], [], [], [], []⟩ "m" "7" "0" "0" (some "terrain")).1.status = 400 ∧
    (routeGET (fun _ => [1]) ⟨[], [], [], [], []⟩ "m" "7" "0" "0" (some "terrain")).2.1 =
      (⟨[], [], [], [], []⟩ : DBState) ∧
    (routeGET (fun _ => [1]) ⟨[], [], [], [], []⟩ "m" "7" "0" "0" (some "terrain")).2.2 = [] :=
  route_validation_rejects (fun _ => [1]) ⟨[], [], [], [], []⟩ "m" "7" "0" "0" (some "terrain")
    (Or.inl (by rw [(by decide : jsParseInt "7" = some 7)]; norm_num))

/-- Counterexample to C7 as stated: the zoom segment `"2.9"` does not
denote an integer, yet `parseInt` truncates it to `2` and the request is
not rejected — it proceeds past validation and performs the invalidation
check, the cache read and the map load (404 here since the store is
empty). -/
theorem route_validation_counterexample :
    jsParseInt "2.9" = some 2 ∧
    (routeGET (fun _ => [1]) ⟨[], [], [], [], []⟩ "m" "2.9" "0" "0" (some "terrain")).1.status = 404 ∧
    (routeGET (fun _ => [1]) ⟨[], [], [], [], []⟩ "m" "2.9" "0" "0" (some "terrain")).2.2 =
      [RouteEffect.invalidationCheck, RouteEffect.cacheRead, RouteEffect.mapLoad] := by
  refine ⟨by decide, ?_, ?_⟩ <;> decide

/-! ## Tile loader (`src/lib/tileLoader.ts`, scheduler version)

The debounced `updateViewport` callback is modelled as a state transition
on the loader's queue and its loaded/loading key sets; timers and image
callbacks order these transitions but each transition's effect is the
synchronous code of the callback.  Tile keys `"zoom-x-y-view"` are
modelled structurally; on the coordinates the loader produces (tile
indices are nonnegative) the string form is in bijection with the
structure. -/

structure Viewport where
  x : ℚ
  y : ℚ
  width : ℚ
  height : ℚ
  deriving DecidableEq, Repr

structure TileRequest where
  mapId : String
  zoom : ℕ
  x : ℤ
  y : ℤ
  view : MapView
  deriving DecidableEq, Repr

/-- The structural form of the loader's `"zoom-x-y-view"` key. -/
structure LoaderKey where
  zoom : ℕ
  x : ℤ
  y : ℤ
  view : MapView
  deriving DecidableEq, Repr

/-- `scaleToZoomLevel`: fixed thresholds ½, 1, 2, 4. -/
def scaleToZoomLevel (scale : ℚ) : ℕ :=
  if scale < 1/2 then 0
  else if scale < 1 then 1
  else if scale < 2 then 2
  else if scale < 4 then 3
  else 4

/-- The inclusive integer range `[lo, hi]` walked by the tile loops. -/
def intRangeIncl (lo hi : ℤ) : List ℤ :=
  (List.range (hi + 1 - lo).toNat).map (fun i : ℕ => lo + (i : ℤ))

/-- The loader's `getTilesForViewport`: clamp the viewport to the map,
divide by the world tile size, and walk the inclusive coordinate ranges. -/
def loaderTilesForViewport (mapWidth mapHeight : ℚ) (viewport : Viewport)
    (zoomLevel : ℕ) : List TileCoordinate :=
  let w : ℚ := worldTileSize zoomLevel
  let minTileX := ⌊(max 0 viewport.x) / w⌋
  let maxTileX := ⌈(min mapWidth (viewport.x + viewport.width)) / w⌉
  let minTileY := ⌊(max 0 viewport.y) / w⌋
  let maxTileY := ⌈(min mapHeight (viewport.y + viewport.height)) / w⌉
  (intRangeIncl minTileX maxTileX).bind fun x =>
    (intRangeIncl minTileY maxTileY).map fun y => ⟨x, y, zoomLevel⟩

/-- The loader's `getTileKey`. -/
def loaderKey (c : TileCoordinate) (viewMode : MapView) : LoaderKey :=
  ⟨c.zoom, c.x, c.y, viewMode⟩

/-- The key addressed by a queued request. -/
def requestKey (r : TileRequest) : LoaderKey :=
  ⟨r.zoom, r.x, r.y, r.view⟩

/-- The requests appended by one firing of the debounced `updateViewport`
callback: current-zoom tiles first, then other/lower-zoom tiles, skipping
keys already in the loaded or loading sets (requests already sitting in
the queue are not consulted). -/
def viewportRequests (mapId : String) (mapWidth mapHeight : ℚ)
    (loaded loading : List LoaderKey) (viewport : Viewport) (scale : ℚ)
    (viewMode : MapView) (progressive : Bool) : List TileRequest :=
  let zoomLevel := scaleToZoomLevel scale
  let tiles := loaderTilesForViewport mapWidth mapHeight viewport zoomLevel
  let currentZoomTiles := tiles.filter (fun t => t.zoom == zoomLevel)
  let otherZoomTiles := tiles.filter (fun t => t.zoom != zoomLevel) ++
    (if progressive ∧ 0 < zoomLevel then
      (loaderTilesForViewport mapWidth mapHeight viewport (zoomLevel - 1)).filter
        (fun t => t.zoom != zoomLevel)
    else [])
  (currentZoomTiles ++ otherZoomTiles).filterMap fun tile =>
    if loaderKey tile viewMode ∈ loaded ∨ loaderKey tile viewMode ∈ loading then none
    else some ⟨mapId, tile.zoom, tile.x, tile.y, viewMode⟩

/-- The loader state touched by `updateViewport`: the FIFO queue and the
key sets of `loadedTiles` and `loadingTiles`. -/
structure LoaderState where
  requestQueue : List TileRequest
  loadedKeys : List LoaderKey
  loadingKeys : List LoaderKey
  deriving DecidableEq, Repr

/-- One firing of the debounced `updateViewport` callback. -/
def updateViewportFire (mapId : String) (mapWidth mapHeight : ℚ) (st : LoaderState)
    (viewport : Viewport) (scale : ℚ) (viewMode : MapView) (progressive : Bool) :
    LoaderState :=
  { st with requestQueue := (st.requestQueue ++
      viewportRequests mapId mapWidth mapHeight st.loadedKeys st.loadingKeys
        viewport scale viewMode progressive) }

/-! ## C6 — viewport request deduplication -/

theorem loaderTiles_zoom (mapWidth mapHeight : ℚ) (vp : Viewport) (z : ℕ) :
    ∀ t ∈ loaderTilesForViewport mapWidth mapHeight vp z, t.zoom = z := by
  intro t ht
  unfold loaderTilesForViewport at ht
  simp only [List.mem_bind, List.mem_map] at ht
  obtain ⟨x, -, y, -, rfl⟩ := ht
  rfl

theorem intRangeIncl_nodup (lo hi : ℤ) : (intRangeIncl lo hi).Nodup :=
  List.Nodup.map (fun a b (h : lo + (a : ℤ) = lo + (b : ℤ)) => by omega)
    (List.nodup_range _)

theorem loaderTiles_nodup (mapWidth mapHeight : ℚ) (vp : Viewport) (z : ℕ) :
    (loaderTilesForViewport mapWidth mapHeight vp z).Nodup := by
  unfold loaderTilesForViewport
  apply List.nodup_flatMap.mpr
  constructor
  · intro x _
    apply List.Nodup.map ?_ (intRangeIncl_nodup _ _)
    intro a b h
    injection h
  · apply List.Pairwise.imp ?_ (intRangeIncl_nodup _ _)
    intro a b hne t hta htb
    simp only [List.mem_map] at hta htb
    obtain ⟨ya, -, rfl⟩ := hta
    obtain ⟨yb, -, hb⟩ := htb
    exact hne (congrArg TileCoordinate.x hb.symm)

/-- Every request enqueued by one `updateViewport` firing addresses a key
that was neither loaded nor loading when the firing ran. -/
theorem viewportRequests_skip (mapId : String) (mapWidth mapHeight : ℚ)
    (loaded loading : List LoaderKey) (vp : Viewport) (scale : ℚ)
    (viewMode : MapView) (progressive : Bool) :
    ∀ r ∈ viewportRequests mapId mapWidth mapHeight loaded loading vp scale
        viewMode progressive,
      requestKey r ∉ loaded ∧ requestKey r ∉ loading := by
  intro r hr
  unfold viewportRequests at hr
  obtain ⟨tile, -, hcond⟩ := List.mem_filterMap.mp hr
  by_cases h : loaderKey tile viewMode ∈ loaded ∨ loaderKey tile viewMode ∈ loading
  · rw [if_pos h] at hcond
    cases hcond
  · rw [if_neg h] at hcond
    have hreq := Option.some_inj.mp hcond
    push_neg at h
    have hkey : requestKey r = loaderKey tile viewMode := by rw [← hreq]; rfl
    rw [hkey]
    exact h

/-- Within one `updateViewport` firing, every key is enqueued at most
once: the grid of tiles is duplicate-free and the progressive lower-zoom
tiles differ from the current-zoom tiles in their zoom component. -/
theorem viewportRequests_keys_nodup (mapId : String) (mapWidth mapHeight : ℚ)
    (loaded loading : List LoaderKey) (vp : Viewport) (scale : ℚ)
    (viewMode : MapView) (progressive : Bool) :
    ((viewportRequests mapId mapWidth mapHeight loaded loading vp scale viewMode
        progressive).map requestKey).Nodup := by
  unfold viewportRequests
  rw [List.map_filterMap]
  apply List.Nodup.filterMap
  · intro a a' b hb hb'
    by_cases ha : loaderKey a viewMode ∈ loaded ∨ loaderKey a viewMode ∈ loading
    · rw [if_pos ha] at hb
      cases hb
    · by_cases ha' : loaderKey a' viewMode ∈ loaded ∨ loaderKey a' viewMode ∈ loading
      · rw [if_pos ha'] at hb'
        cases hb'
      · rw [if_neg ha] at hb
        rw [if_neg ha'] at hb'
        simp only [Option.map_some', Option.mem_def, Option.some.injEq] at hb hb'
        have hksame : requestKey ⟨mapId, a.zoom, a.x, a.y, viewMode⟩ =
            requestKey ⟨mapId, a'.zoom, a'.x, a'.y, viewMode⟩ := by
          rw [hb, hb']
        have hcomp : (⟨a.zoom, a.x, a.y, viewMode⟩ : LoaderKey) =
            ⟨a'.zoom, a'.x, a'.y, viewMode⟩ := hksame
        cases a
        cases a'
        injection hcomp with h1 h2 h3 h4
        simp only at h1 h2 h3
        subst h1
        subst h2
        subst h3
        rfl
  · have hz := loaderTiles_zoom mapWidth mapHeight vp (scaleToZoomLevel scale)
    have hfilter_nil : (loaderTilesForViewport mapWidth mapHeight vp
        (scaleToZoomLevel scale)).filter
          (fun t => t.zoom != scaleToZoomLevel scale) = [] := by
      rw [List.filter_eq_nil]
      intro t ht
      simp [hz t ht]
    rw [hfilter_nil, List.nil_append]
    by_cases hp : progressive ∧ 0 < scaleToZoomLevel scale
    · rw [if_pos hp]
      apply List.Nodup.append
      · exact (loaderTiles_nodup mapWidth mapHeight vp _).filter _
      · exact (loaderTiles_nodup mapWidth mapHeight vp _).filter _
      · intro t ht1 ht2
        have e1 : t.zoom = scaleToZoomLevel scale :=
          hz t (List.mem_of_mem_filter ht1)
        have e2 : t.zoom = scaleToZoomLevel scale - 1 :=
          loaderTiles_zoom mapWidth mapHeight vp _ t (List.mem_of_mem_filter ht2)
        omega
    · rw [if_neg hp, List.append_nil]
      exact (loaderTiles_nodup mapWidth mapHeight vp _).filter _

/-- **C6 (amended)** — Keys already loaded or already loading are skipped,
and within one `updateViewport` firing each key is enqueued at most once;
hence when the second of two viewport updates fires only after every
request of the first has begun loading or completed (its key is in the
loading or loaded set), each distinct tile key is enqueued at most once
across both calls.  Requests of the first call still *waiting in the
queue* are not in either set and are not deduplicated — the original
claim, which also covers merely queued requests, fails (see the
counterexample). -/
theorem updateViewport_dedup_after_inflight (mapId : String) (mapWidth mapHeight : ℚ)
    (loaded₁ loading₁ loaded₂ loading₂ : List LoaderKey)
    (vp₁ vp₂ : Viewport) (s₁ s₂ : ℚ) (view₁ view₂ : MapView) (prog₁ prog₂ : Bool)
    (hinflight : ∀ r ∈ viewportRequests mapId mapWidth mapHeight loaded₁ loading₁
        vp₁ s₁ view₁ prog₁,
      requestKey r ∈ loaded₂ ∨ requestKey r ∈ loading₂)
    (k : LoaderKey) :
    ((viewportRequests mapId mapWidth mapHeight loaded₁ loading₁ vp₁ s₁ view₁ prog₁).map
        requestKey ++
      (viewportRequests mapId mapWidth mapHeight loaded₂ loading₂ vp₂ s₂ view₂ prog₂).map
        requestKey).count k ≤ 1 := by
  rw [List.count_append]
  have h1 := List.nodup_iff_count_le_one.mp
    (viewportRequests_keys_nodup mapId mapWidth mapHeight loaded₁ loading₁ vp₁ s₁
      view₁ prog₁) k
  have h2 := List.nodup_iff_count_le_one.mp
    (viewportRequests_keys_nodup mapId mapWidth mapHeight loaded₂ loading₂ vp₂ s₂
      view₂ prog₂) k
  by_cases hk : k ∈ (viewportRequests mapId mapWidth mapHeight loaded₁ loading₁ vp₁ s₁
      view₁ prog₁).map requestKey
  · obtain ⟨r, hr, hkr⟩ := List.mem_map.mp hk
    have hin := hinflight r hr
    have hnot2 : k ∉ (viewportRequests mapId mapWidth mapHeight loaded₂ loading₂ vp₂ s₂
        view₂ prog₂).map requestKey := by
      intro hk2
      obtain ⟨r₂, hr₂, hkr₂⟩ := List.mem_map.mp hk2
      have hskip := viewportRequests_skip mapId mapWidth mapHeight loaded₂ loading₂
        vp₂ s₂ view₂ prog₂ r₂ hr₂
      rw [hkr₂, ← hkr] at hskip
      rcases hin with h | h
      · exact hskip.1 h
      · exact hskip.2 h
    rw [List.count_eq_zero.mpr hnot2]
    omega
  · rw [List.count_eq_zero.mpr hk]
    omega

/-- The viewport used by the C6 witness and counterexample. -/
def c6Vp : Viewport := ⟨0, 0, 100, 100⟩

set_option maxRecDepth 1000000 in
unseal Rat.mul Rat.add Rat.sub Rat.inv Rat.ofScientific in
/-- Witness for C6's amended statement: after the first call's four
requests are all loading, a second identical call enqueues nothing, so key
(0,0,0,terrain) appears at most once across both calls. -/
theorem updateViewport_dedup_after_inflight_witness :
    ((viewportRequests "m" 1000 1000 [] [] c6Vp (1/4) MapView.terrain true).map
        requestKey ++
      (viewportRequests "m" 1000 1000 []
        [⟨0, 0, 0, MapView.terrain⟩, ⟨0, 0, 1, MapView.terrain⟩,
         ⟨0, 1, 0, MapView.terrain⟩, ⟨0, 1, 1, MapView.terrain⟩]
        c6Vp (1/4) MapView.terrain true).map requestKey).count
      ⟨0, 0, 0, MapView.terrain⟩ ≤ 1 :=
  updateViewport_dedup_after_inflight "m" 1000 1000 []
    [] []
    [⟨0, 0, 0, MapView.terrain⟩, ⟨0, 0, 1, MapView.terrain⟩,
     ⟨0, 1, 0, MapView.terrain⟩, ⟨0, 1, 1, MapView.terrain⟩]
    c6Vp c6Vp (1/4) (1/4) MapView.terrain MapView.terrain true true
    (by decide) ⟨0, 0, 0, MapView.terrain⟩

set_option maxRecDepth 1000000 in
unseal Rat.mul Rat.add Rat.sub Rat.inv Rat.ofScientific in
/-- Counterexample to C6 as stated: two identical `updateViewport` firings
while the first call's requests are still only *queued* (the loading and
loaded sets are empty) enqueue the tile key (zoom 0, x 0, y 0, terrain)
twice into the request queue. -/
theorem updateViewport_dedup_counterexample :
    ((updateViewportFire "m" 1000 1000
        (updateViewportFire "m" 1000 1000 ⟨[], [], []⟩ c6Vp (1/4) MapView.terrain true)
        c6Vp (1/4) MapView.terrain true).requestQueue.count
      ⟨"m", 0, 0, 0, MapView.terrain⟩) = 2 := by
  decide

end AIEmpires
